import Mathlib

/-!
Verification of the AST-to-graph extraction engine of the code_rag repository.

The engine walks a tree-sitter syntax tree of one Python source unit and stages
graph nodes (File / Class / Method / Import) and relationships (DEFINED_IN /
CALLED_IN / IMPORTS_FOR / IMPORTED_IN).  The repository holds two near-duplicate
revisions of the engine:

* `signature_based_rag/src/service/python_code_parser.py` (modelled below under
  the `Sig` prefix): emits nodes and relationships directly to a `GraphDB`
  collaborator and aggregates all import statements of a file into a single
  Import entity created after the walk;
* `src/src/service/python_code_parser.py` (modelled below under the `Src`
  prefix): accumulates node and relationship dictionaries in lists, deduplicates
  relationships by a `start-label-end` key, creates one Import node per import
  statement, and returns the two lists from `parse_file`.

The syntax tree is modelled by `TSNode` (a type tag, the verbatim source text
the node spans, its start/end rows, and the ordered children), exactly the
interface the Python code uses (`node.type`, `node.text`, `node.start_point`,
`node.end_point`, `node.children`).  Python string operations used by the code
(`str.strip`, `str.split('.')[-1]`, `'.' in s`, `Path(p).name`, `'\n'.join`)
are modelled by executable character-level functions so that every concrete run
of the engine evaluates inside the kernel.
-/

/-- A tree-sitter syntax node: type tag, spanned source text, start row,
end row, ordered children. -/
inductive TSNode : Type where
  | mk (ty : String) (text : String) (startRow : Nat) (endRow : Nat)
       (children : List TSNode)

/-- `node.type` of tree-sitter. -/
def TSNode.ty : TSNode → String
  | .mk t _ _ _ _ => t

/-- `node.text.decode("utf-8")` of tree-sitter. -/
def TSNode.text : TSNode → String
  | .mk _ x _ _ _ => x

/-- `node.start_point[0]` of tree-sitter. -/
def TSNode.startRow : TSNode → Nat
  | .mk _ _ r _ _ => r

/-- `node.end_point[0]` of tree-sitter. -/
def TSNode.endRow : TSNode → Nat
  | .mk _ _ _ e _ => e

/-- `node.children` of tree-sitter. -/
def TSNode.children : TSNode → List TSNode
  | .mk _ _ _ _ cs => cs

/-- The whitespace characters removed by Python `str.strip()`. -/
def isPySpace (c : Char) : Bool :=
  c = ' ' ∨ c = '\t' ∨ c = '\n' ∨ c = '\r' ∨ c = Char.ofNat 11 ∨ c = Char.ofNat 12

/-- Python `s.strip()`: remove leading and trailing whitespace. -/
def pyStrip (s : String) : String :=
  String.mk (((s.data.dropWhile isPySpace).reverse.dropWhile isPySpace).reverse)

/-- The quote characters removed by Python `s.strip('"\x27')`. -/
def isQuoteChar (c : Char) : Bool :=
  c = Char.ofNat 34 ∨ c = Char.ofNat 39

/-- Python `s.strip('"\x27')`: remove leading and trailing quote characters. -/
def stripQuotes (s : String) : String :=
  String.mk (((s.data.dropWhile isQuoteChar).reverse.dropWhile isQuoteChar).reverse)

/-- Split a character list at every occurrence of `sep`. -/
def chSplit (sep : Char) : List Char → List (List Char)
  | [] => [[]]
  | c :: cs =>
    match chSplit sep cs with
    | [] => [[]]
    | seg :: rest => if c = sep then [] :: seg :: rest else (c :: seg) :: rest

/-- Python `s.split(sep)[-1]` for a one-character separator: the last segment. -/
def lastSegment (sep : Char) (s : String) : String :=
  String.mk ((s.data.reverse.takeWhile (fun c => ¬ (c = sep))).reverse)

/-- Python `Path(p).name`: the last non-empty component of a slash-separated
path (the file's basename). -/
def pathName (p : String) : String :=
  String.mk (((chSplit '/' p.data).filter (fun seg => ¬ (seg = []))).getLastD [])

/-- A staged relationship record: `_add_relationship(start_id, end_id, label,
properties)`; the engine always passes empty properties. -/
structure GraphRel where
  start_id : String
  end_id : String
  label : String
  props : List (String × String)
deriving DecidableEq

/-- `_extract_identifier`: the text of the first direct child whose type is
`identifier`, if any. -/
def extractIdentifier (n : TSNode) : Option String :=
  (n.children.find? (fun c => c.ty == "identifier")).map TSNode.text

/-- `_extract_base_classes`: for every direct child of type `argument_list`,
the texts of its children of type `identifier`, in order. -/
def extractBaseClasses (n : TSNode) : List String :=
  (n.children.filter (fun c => c.ty == "argument_list")).flatMap
    (fun c => (c.children.filter (fun g => g.ty == "identifier")).map TSNode.text)

/-- `_extract_method_name`: a plain identifier's text verbatim; for an
`attribute` node containing a dot, the trailing segment after the last dot;
otherwise nothing. -/
def extractMethodName (n : TSNode) : Option String :=
  if n.ty = "identifier" then some n.text
  else if n.ty = "attribute" then
    if n.text.data.any (fun c => c = '.') then some (lastSegment '.' n.text)
    else none
  else none

/-- The Python truthiness fallback `if not parent_id: parent_id = f"file:{...}"`
used by both definition handlers. -/
def defaultToFile (parent : Option String) (path : String) : String :=
  match parent with
  | some p => if p = "" then "file:" ++ pathName path else p
  | none => "file:" ++ pathName path

/-- Kind-specific property dictionaries staged by the signature_based_rag
revision (`_handle_module`, `_handle_class_definition`,
`_handle_function_definition`, `_create_import_node`). -/
inductive SigProps : Type where
  | file (name description file_path code_block : String)
  | cls (name description file_path : String) (base_classes : List String)
        (code_block : String)
  | method (name description file_path method_type : String)
           (parameters : List String) (code_block : String)
  | imp (name description file_path code_block : String)
deriving DecidableEq

/-- The `method_type` property of a staged node, when it is a Method node. -/
def SigProps.methodType : SigProps → Option String
  | .method _ _ _ mt _ _ => some mt
  | _ => none

/-- The `code_block` property of a staged node. -/
def SigProps.codeBlock : SigProps → String
  | .file _ _ _ cb => cb
  | .cls _ _ _ _ cb => cb
  | .method _ _ _ _ _ cb => cb
  | .imp _ _ _ cb => cb

/-- One node emission of the signature_based_rag revision: the `labels` list
and the properties dictionary (whose `id` key is the field `id`) passed to
`GraphDB.create_node`. -/
structure SigNode where
  labels : List String
  id : String
  props : SigProps
deriving DecidableEq

/-- The per-pass state of the signature_based_rag parser: the `processed_nodes`
set, the `imports` accumulator, and the streams of node and relationship
emissions handed to the `GraphDB` collaborator. -/
structure SigState where
  processed : List String
  imports : List String
  nodes : List SigNode
  rels : List GraphRel
deriving DecidableEq

/-- The fresh state produced by `reset()`. -/
def SigState.init : SigState := ⟨[], [], [], []⟩

/-- `_add_relationship` of the signature_based_rag revision: stages the edge
(the revision itself performs no deduplication; its `GraphDB` collaborator
deduplicates on upsert). -/
def Sig.addRelationship (rStart rEnd label : String) (s : SigState) : SigState :=
  { s with rels := s.rels ++ [⟨rStart, rEnd, label, []⟩] }

/-- `_handle_module` of the signature_based_rag revision. -/
def Sig.handleModule (n : TSNode) (path fname : String) (s : SigState) : SigState :=
  let nodeId := "file:" ++ fname
  if nodeId ∈ s.processed then s
  else
    { s with
      nodes := s.nodes ++ [⟨["File"], nodeId, .file fname "" path n.text⟩],
      processed := s.processed ++ [nodeId] }

/-- `_handle_class_definition` of the signature_based_rag revision. -/
def Sig.handleClassDefinition (n : TSNode) (path : String) (parent : Option String)
    (s : SigState) : SigState × Option String :=
  match extractIdentifier n with
  | none => (s, none)
  | some className =>
    if className = "" then (s, none)
    else
      let nodeId := "class:" ++ className
      if nodeId ∈ s.processed then (s, some nodeId)
      else
        let baseClasses := extractBaseClasses n
        let s1 := { s with
          nodes := s.nodes ++
            [⟨["Class"], nodeId, .cls className "" path baseClasses n.text⟩],
          processed := s.processed ++ [nodeId] }
        (Sig.addRelationship nodeId (defaultToFile parent path) "DEFINED_IN" s1,
         some nodeId)

/-- `_extract_parameters` of the signature_based_rag revision: for every direct
child of type `parameters`, keep each parameter child that is a plain
`identifier`, and for a `typed_parameter` keep its first `identifier`
sub-child; every other parameter shape (in particular `default_parameter`)
contributes nothing. -/
def Sig.extractParameters (n : TSNode) : List String :=
  n.children.flatMap (fun child =>
    if child.ty = "parameters" then
      child.children.flatMap (fun p =>
        if p.ty = "identifier" then [p.text]
        else if p.ty = "typed_parameter" then
          match (p.children.find? (fun sc => sc.ty == "identifier")).map TSNode.text with
          | some t => [t]
          | none => []
        else [])
    else [])

/-- `_handle_function_definition` of the signature_based_rag revision. -/
def Sig.handleFunctionDefinition (n : TSNode) (path : String)
    (parent : Option String) (s : SigState) : SigState × Option String :=
  match extractIdentifier n with
  | none => (s, none)
  | some funcName =>
    if funcName = "" then (s, none)
    else
      let nodeId := "method:" ++ funcName
      if nodeId ∈ s.processed then (s, some nodeId)
      else
        let isAsync := n.children.any (fun c => c.ty == "async")
        let parameters := Sig.extractParameters n
        let s1 := { s with
          nodes := s.nodes ++
            [⟨["Method"], nodeId,
              .method funcName "" path (if isAsync then "async" else "sync")
                parameters n.text⟩],
          processed := s.processed ++ [nodeId] }
        (Sig.addRelationship nodeId (defaultToFile parent path) "DEFINED_IN" s1,
         some nodeId)

/-- `_collect_import` of the signature_based_rag revision: append the stripped
statement text to the per-file accumulator when it is non-empty. -/
def Sig.collectImport (n : TSNode) (s : SigState) : SigState :=
  let importInfo := pyStrip n.text
  if importInfo = "" then s
  else { s with imports := s.imports ++ [importInfo] }

/-- `_create_import_node` of the signature_based_rag revision: if any import
text was accumulated, stage one aggregate Import node and one `IMPORTS_FOR`
edge to the file node. -/
def Sig.createImportNode (path : String) (s : SigState) : SigState :=
  if s.imports = [] then s
  else
    let fname := pathName path
    let importId := "import:" ++ fname
    let s1 := { s with
      nodes := s.nodes ++
        [⟨["Import"], importId,
          .imp "imports" ("All imports for " ++ fname) path
            (String.intercalate "\n" s.imports)⟩],
      processed := s.processed ++ [importId] }
    Sig.addRelationship importId ("file:" ++ fname) "IMPORTS_FOR" s1

/-- `_handle_method_call` of the signature_based_rag revision: stage a
`CALLED_IN` edge from `method:<name>` to the current enclosing id when the
callee resolves to a (truthy) name and the enclosing id is (truthy) present. -/
def Sig.handleMethodCall (n : TSNode) (parent : Option String) (s : SigState) :
    SigState :=
  match n.children with
  | [] => s
  | methodNode :: _ =>
    match extractMethodName methodNode, parent with
    | some methodName, some parentId =>
      if methodName = "" ∨ parentId = "" then s
      else Sig.addRelationship ("method:" ++ methodName) parentId "CALLED_IN" s
    | _, _ => s

/-- The dispatch step of `_parse_node` (signature_based_rag revision): handle
one node and produce the updated state together with the enclosing id passed to
the node's children.  Only the class and function handlers update the enclosing
id; in particular the module handler leaves it unchanged. -/
def Sig.handleOne (n : TSNode) (path : String) (parent : Option String)
    (s : SigState) : SigState × Option String :=
  if n.ty = "module" then (Sig.handleModule n path (pathName path) s, parent)
  else if n.ty = "class_definition" then Sig.handleClassDefinition n path parent s
  else if n.ty = "function_definition" then
    Sig.handleFunctionDefinition n path parent s
  else if n.ty = "import_statement" ∨ n.ty = "import_from_statement" then
    (Sig.collectImport n s, parent)
  else if n.ty = "call" then (Sig.handleMethodCall n parent s, parent)
  else (s, parent)

mutual
/-- `_parse_node` of the signature_based_rag revision: dispatch on the node
type, then recurse into every child with the (possibly updated) enclosing
id. -/
def Sig.parseNode : TSNode → String → Option String → SigState → SigState
  | n@(.mk _ _ _ _ cs), path, parent, s =>
    Sig.parseChildren cs path (Sig.handleOne n path parent s).2
      (Sig.handleOne n path parent s).1
termination_by structural n => n

/-- The child loop of `_parse_node` (signature_based_rag revision). -/
def Sig.parseChildren : List TSNode → String → Option String → SigState → SigState
  | [], _, _, s => s
  | c :: cs, path, parent, s =>
    Sig.parseChildren cs path parent (Sig.parseNode c path parent s)
termination_by structural l => l
end

/-- `parse_file` of the signature_based_rag revision.  The input is the result
of reading and parsing the source unit: `Except.error` when the file is
unreadable or any step raises, `Except.ok root` on success.  The first
component is the final parser/emission state; the second component is the
Python return value: `some ([], [])` from the `except` clause, and `none`
(Python `None`) on success, because the `try` block has no `return`
statement. -/
def Sig.parseFile (src : Except String TSNode) (path : String) :
    SigState × Option (List SigNode × List GraphRel) :=
  match src with
  | .error _ => (SigState.init, some ([], []))
  | .ok root =>
    let s1 := Sig.parseNode root path none SigState.init
    (Sig.createImportNode path s1, none)

mutual
/-- The import-typed nodes of a tree in encounter (pre)order: exactly the nodes
at which the walker's `import_statement` / `import_from_statement` branch
fires. -/
def importNodes : TSNode → List TSNode
  | n@(.mk _ _ _ _ cs) =>
    (if n.ty = "import_statement" ∨ n.ty = "import_from_statement" then [n] else [])
      ++ importNodesList cs
termination_by structural n => n

/-- `importNodes` over a list of sibling subtrees. -/
def importNodesList : List TSNode → List TSNode
  | [] => []
  | c :: cs => importNodes c ++ importNodesList cs
termination_by structural l => l
end

/-- The stripped, non-empty import statement texts of a tree in encounter
order: what `_collect_import` accumulates over a whole walk. -/
def importTexts (n : TSNode) : List String :=
  ((importNodes n).map (fun m => pyStrip m.text)).filter (fun t => ¬ (t = ""))

/-- `importTexts` over a list of sibling subtrees. -/
def importTextsList (l : List TSNode) : List String :=
  ((importNodesList l).map (fun m => pyStrip m.text)).filter (fun t => ¬ (t = ""))

/-- Kind-specific property dictionaries staged by the src/src revision
(`_handle_module`, `_handle_class_definition`, `_handle_function_definition`,
`_handle_import`). -/
inductive SrcProps : Type where
  | file (name description file_path : String) (size : Nat)
  | cls (name description file_path : String) (base_classes : List String)
        (line_start line_end : Nat)
  | method (name description file_path method_type : String)
           (parameters : List String) (line_start line_end : Nat)
  | imp (name description file_path : String) (imported_items : List String)
        (line_number : Nat)
deriving DecidableEq

/-- The `method_type` property of a staged src/src node, when it is a Method
node. -/
def SrcProps.methodType : SrcProps → Option String
  | .method _ _ _ mt _ _ _ => some mt
  | _ => none

/-- One node record appended to `self.nodes` by the src/src revision: the
`id`, the `labels` list and the properties dictionary. -/
structure SrcNode where
  id : String
  labels : List String
  props : SrcProps
deriving DecidableEq

/-- The per-pass state of the src/src parser: `self.processed_nodes`,
`self.nodes` and `self.relationships`. -/
structure SrcState where
  processed : List String
  nodes : List SrcNode
  rels : List GraphRel
deriving DecidableEq

/-- The fresh state produced by `reset()`. -/
def SrcState.init : SrcState := ⟨[], [], []⟩

/-- The deduplication key `f"{start_id}-{label}-{end_id}"` of
`_add_relationship` (src/src revision). -/
def relKey (rStart label rEnd : String) : String :=
  rStart ++ "-" ++ label ++ "-" ++ rEnd

/-- `_add_relationship` of the src/src revision: append the relationship
record unless a record with the same `start-label-end` key is already
staged. -/
def Src.addRelationship (rStart rEnd label : String) (s : SrcState) : SrcState :=
  let key := relKey rStart label rEnd
  if s.rels.any (fun r => key == relKey r.start_id r.label r.end_id) then s
  else { s with rels := s.rels ++ [⟨rStart, rEnd, label, []⟩] }

/-- `_handle_module` of the src/src revision. -/
def Src.handleModule (n : TSNode) (path fname : String) (s : SrcState) : SrcState :=
  let nodeId := "file:" ++ fname
  if nodeId ∈ s.processed then s
  else
    { s with
      nodes := s.nodes ++ [⟨nodeId, ["File"], .file fname "" path n.text.length⟩],
      processed := s.processed ++ [nodeId] }

/-- `_extract_docstring` of the src/src revision: the first `string` node
found under an `expression_statement` under a `block` child, with quotes and
whitespace stripped. -/
def Src.extractDocstring (n : TSNode) : Option String :=
  n.children.findSome? (fun child =>
    if child.ty = "block" then
      child.children.findSome? (fun g =>
        if g.ty = "expression_statement" then
          g.children.findSome? (fun gg =>
            if gg.ty = "string" then some (pyStrip (stripQuotes gg.text)) else none)
        else none)
    else none)

/-- `_handle_class_definition` of the src/src revision. -/
def Src.handleClassDefinition (n : TSNode) (path : String) (parent : Option String)
    (s : SrcState) : SrcState × Option String :=
  match extractIdentifier n with
  | none => (s, none)
  | some className =>
    if className = "" then (s, none)
    else
      let nodeId := "class:" ++ className
      if nodeId ∈ s.processed then (s, some nodeId)
      else
        let docstring := (Src.extractDocstring n).getD ""
        let baseClasses := extractBaseClasses n
        let s1 := { s with
          nodes := s.nodes ++
            [⟨nodeId, ["Class"],
              .cls className docstring path baseClasses (n.startRow + 1)
                (n.endRow + 1)⟩],
          processed := s.processed ++ [nodeId] }
        (Src.addRelationship nodeId (defaultToFile parent path) "DEFINED_IN" s1,
         some nodeId)

/-- `_extract_parameters` of the src/src revision: for every direct child of
type `parameters`, keep each parameter child that is a plain `identifier`, and
for a `default_parameter` keep its first `identifier` sub-child; every other
parameter shape (in particular `typed_parameter`) contributes nothing. -/
def Src.extractParameters (n : TSNode) : List String :=
  n.children.flatMap (fun child =>
    if child.ty = "parameters" then
      child.children.flatMap (fun p =>
        if p.ty = "identifier" then [p.text]
        else if p.ty = "default_parameter" then
          match (p.children.find? (fun sc => sc.ty == "identifier")).map TSNode.text with
          | some t => [t]
          | none => []
        else [])
    else [])

/-- `_handle_function_definition` of the src/src revision. -/
def Src.handleFunctionDefinition (n : TSNode) (path : String)
    (parent : Option String) (s : SrcState) : SrcState × Option String :=
  match extractIdentifier n with
  | none => (s, none)
  | some funcName =>
    if funcName = "" then (s, none)
    else
      let nodeId := "method:" ++ funcName
      if nodeId ∈ s.processed then (s, some nodeId)
      else
        let isAsync := n.children.any (fun c => c.ty == "async")
        let docstring := (Src.extractDocstring n).getD ""
        let parameters := Src.extractParameters n
        let s1 := { s with
          nodes := s.nodes ++
            [⟨nodeId, ["Method"],
              .method funcName docstring path (if isAsync then "async" else "sync")
                parameters (n.startRow + 1) (n.endRow + 1)⟩],
          processed := s.processed ++ [nodeId] }
        (Src.addRelationship nodeId (defaultToFile parent path) "DEFINED_IN" s1,
         some nodeId)

/-- `_extract_import_items` of the src/src revision. -/
def Src.extractImportItems (n : TSNode) : List String :=
  if n.ty = "identifier" then [n.text]
  else
    n.children.flatMap (fun child =>
      if child.ty = "identifier" then [child.text]
      else if child.ty = "aliased_import" then
        match (child.children.find? (fun sc => sc.ty == "identifier")).map TSNode.text with
        | some t => [t]
        | none => []
      else [])

/-- `_handle_import` of the src/src revision.  `hashFn` models Python's opaque
built-in `hash` on strings, which the revision embeds into the import node id;
every theorem below holds for an arbitrary `hashFn`. -/
def Src.handleImport (hashFn : String → Int) (n : TSNode) (path : String)
    (s : SrcState) : SrcState :=
  let importText := n.text
  if pyStrip importText = "" then s
  else
    let importedItems : List String :=
      if n.ty = "import_statement" then
        n.children.flatMap (fun child =>
          if child.ty = "dotted_as_names" ∨ child.ty = "aliased_import" then
            Src.extractImportItems child
          else [])
      else if n.ty = "import_from_statement" then
        n.children.flatMap (fun child =>
          if child.ty = "import_list" then Src.extractImportItems child else [])
      else []
    if importedItems = [] then s
    else
      let fname := pathName path
      let importId := "import:" ++ fname ++ ":" ++ toString (hashFn importText)
      if importId ∈ s.processed then s
      else
        let s1 := { s with
          nodes := s.nodes ++
            [⟨importId, ["Import"],
              .imp "import" importText path importedItems (n.startRow + 1)⟩],
          processed := s.processed ++ [importId] }
        Src.addRelationship importId ("file:" ++ fname) "IMPORTED_IN" s1

/-- `_handle_method_call` of the src/src revision (identical call logic to the
signature_based_rag revision, but staging through the key-deduplicating
`_add_relationship`; the `path` argument is accepted and unused, as in the
source). -/
def Src.handleMethodCall (n : TSNode) (path : String) (parent : Option String)
    (s : SrcState) : SrcState :=
  match n.children with
  | [] => s
  | methodNode :: _ =>
    match extractMethodName methodNode, parent with
    | some methodName, some parentId =>
      if methodName = "" ∨ parentId = "" then s
      else Src.addRelationship ("method:" ++ methodName) parentId "CALLED_IN" s
    | _, _ => s

/-- The dispatch step of `_parse_node` (src/src revision). -/
def Src.handleOne (hashFn : String → Int) (n : TSNode) (path : String)
    (parent : Option String) (s : SrcState) : SrcState × Option String :=
  if n.ty = "module" then (Src.handleModule n path (pathName path) s, parent)
  else if n.ty = "class_definition" then Src.handleClassDefinition n path parent s
  else if n.ty = "function_definition" then
    Src.handleFunctionDefinition n path parent s
  else if n.ty = "import_statement" ∨ n.ty = "import_from_statement" then
    (Src.handleImport hashFn n path s, parent)
  else if n.ty = "call" then (Src.handleMethodCall n path parent s, parent)
  else (s, parent)

mutual
/-- `_parse_node` of the src/src revision. -/
def Src.parseNode (hashFn : String → Int) : TSNode → String → Option String → SrcState → SrcState
  | n@(.mk _ _ _ _ cs), path, parent, s =>
    Src.parseChildren hashFn cs path (Src.handleOne hashFn n path parent s).2
      (Src.handleOne hashFn n path parent s).1
termination_by structural n => n

/-- The child loop of `_parse_node` (src/src revision). -/
def Src.parseChildren (hashFn : String → Int) : List TSNode → String → Option String → SrcState → SrcState
  | [], _, _, s => s
  | c :: cs, path, parent, s =>
    Src.parseChildren hashFn cs path parent (Src.parseNode hashFn c path parent s)
termination_by structural l => l
end

/-- `parse_file` of the src/src revision: on success it returns the staged
node and relationship lists; when reading or parsing raises, the `except`
clause returns `([], [])`. -/
def Src.parseFile (hashFn : String → Int) (src : Except String TSNode)
    (path : String) : List SrcNode × List GraphRel :=
  match src with
  | .error _ => ([], [])
  | .ok root =>
    let s := Src.parseNode hashFn root path none SrcState.init
    (s.nodes, s.rels)

/-- Containment completeness for the signature_based_rag emission stream:
every staged node carrying a `Class` or `Method` label has a `DEFINED_IN`
relationship starting at its id. -/
def Sig.Contained (s : SigState) : Prop :=
  ∀ nd ∈ s.nodes, ("Class" ∈ nd.labels ∨ "Method" ∈ nd.labels) →
    ∃ r ∈ s.rels, r.start_id = nd.id ∧ r.label = "DEFINED_IN"

/-- During the recursive walk of the signature_based_rag revision no
Import-labeled node and no `IMPORTS_FOR` relationship is staged (both come
only from `_create_import_node`, which runs after the walk). -/
def Sig.CoreOnly (s : SigState) : Prop :=
  (∀ nd ∈ s.nodes, ¬ "Import" ∈ nd.labels) ∧ (∀ r ∈ s.rels, ¬ r.label = "IMPORTS_FOR")

/-- Uniqueness invariant of the src/src staging lists: every staged node id is
registered in `processed_nodes`, staged node ids are pairwise distinct, and
staged relationship deduplication keys are pairwise distinct. -/
def Src.Uniq (s : SrcState) : Prop :=
  (∀ nd ∈ s.nodes, nd.id ∈ s.processed) ∧
  (s.nodes.map SrcNode.id).Nodup ∧
  (s.rels.map (fun r => relKey r.start_id r.label r.end_id)).Nodup

/-- An empty Python module. -/
def emptyModule : TSNode := .mk "module" "" 0 0 []

/-- The `parameters` subtree of `(a, b: int, c=3)` as produced by the
tree-sitter Python grammar: a plain `identifier`, a `typed_parameter`
(identifier, colon, type) and a `default_parameter` (identifier, equals,
value). -/
def paramsABC : TSNode :=
  .mk "parameters" "(a, b: int, c=3)" 0 0
    [.mk "(" "(" 0 0 [],
     .mk "identifier" "a" 0 0 [],
     .mk "," "," 0 0 [],
     .mk "typed_parameter" "b: int" 0 0
       [.mk "identifier" "b" 0 0 [],
        .mk ":" ":" 0 0 [],
        .mk "type" "int" 0 0 [.mk "identifier" "int" 0 0 []]],
     .mk "," "," 0 0 [],
     .mk "default_parameter" "c=3" 0 0
       [.mk "identifier" "c" 0 0 [],
        .mk "=" "=" 0 0 [],
        .mk "integer" "3" 0 0 []],
     .mk ")" ")" 0 0 []]

/-- The definition `def f(a, b: int, c=3): pass`. -/
def fdefABC : TSNode :=
  .mk "function_definition" "def f(a, b: int, c=3): pass" 0 0
    [.mk "def" "def" 0 0 [],
     .mk "identifier" "f" 0 0 [],
     paramsABC,
     .mk ":" ":" 0 0 [],
     .mk "block" "pass" 0 0 [.mk "pass_statement" "pass" 0 0 []]]

/-- The definition `async def run(self): pass`: a callable definition whose
`async` marker token is a direct child. -/
def asyncDef : TSNode :=
  .mk "function_definition" "async def run(self): pass" 0 0
    [.mk "async" "async" 0 0 [],
     .mk "def" "def" 0 0 [],
     .mk "identifier" "run" 0 0 [],
     .mk "parameters" "(self)" 0 0
       [.mk "(" "(" 0 0 [],
        .mk "identifier" "self" 0 0 [],
        .mk ")" ")" 0 0 []],
     .mk ":" ":" 0 0 [],
     .mk "block" "pass" 0 0 [.mk "pass_statement" "pass" 0 0 []]]

/-- The definition `def tick(): pass`: a callable definition without an
`async` marker. -/
def syncDef : TSNode :=
  .mk "function_definition" "def tick(): pass" 0 0
    [.mk "def" "def" 0 0 [],
     .mk "identifier" "tick" 0 0 [],
     .mk "parameters" "()" 0 0
       [.mk "(" "(" 0 0 [], .mk ")" ")" 0 0 []],
     .mk ":" ":" 0 0 [],
     .mk "block" "pass" 0 0 [.mk "pass_statement" "pass" 0 0 []]]

/-- A module whose only statement is the call expression `foo()` at module
level (outside any class or function). -/
def moduleCallTree : TSNode :=
  .mk "module" "foo()" 0 0
    [.mk "expression_statement" "foo()" 0 0
      [.mk "call" "foo()" 0 0
        [.mk "identifier" "foo" 0 0 [],
         .mk "argument_list" "()" 0 0
           [.mk "(" "(" 0 0 [], .mk ")" ")" 0 0 []]]]]

/-- A call expression node `bar()`. -/
def callBar : TSNode :=
  .mk "call" "bar()" 0 0
    [.mk "identifier" "bar" 0 0 [],
     .mk "argument_list" "()" 0 0 [.mk "(" "(" 0 0 [], .mk ")" ")" 0 0 []]]

/-- A module containing the two import statements `import os` and
`from sys import path`. -/
def importsTree : TSNode :=
  .mk "module" "import os\nfrom sys import path" 0 1
    [.mk "import_statement" "import os" 0 0
       [.mk "import" "import" 0 0 [],
        .mk "dotted_name" "os" 0 0 [.mk "identifier" "os" 0 0 []]],
     .mk "import_from_statement" "from sys import path" 1 1
       [.mk "from" "from" 1 1 [],
        .mk "dotted_name" "sys" 1 1 [.mk "identifier" "sys" 1 1 []],
        .mk "import" "import" 1 1 [],
        .mk "dotted_name" "path" 1 1 [.mk "identifier" "path" 1 1 []]]]

/-- An anonymous (malformed) class definition node: no `identifier` child can
be extracted.  Its body contains a named function `inner` and the call
`helper()`. -/
def anonClassTree : TSNode :=
  .mk "class_definition" "class : ..." 0 2
    [.mk "class" "class" 0 0 [],
     .mk ":" ":" 0 0 [],
     .mk "block" "..." 1 2
       [.mk "function_definition" "def inner(): helper()" 1 1
         [.mk "def" "def" 1 1 [],
          .mk "identifier" "inner" 1 1 [],
          .mk "parameters" "()" 1 1 [.mk "(" "(" 1 1 [], .mk ")" ")" 1 1 []],
          .mk ":" ":" 1 1 [],
          .mk "block" "helper()" 1 1 []]]]

/-- A class definition `class Foo(Base): pass`. -/
def classFooTree : TSNode :=
  .mk "class_definition" "class Foo(Base): pass" 0 0
    [.mk "class" "class" 0 0 [],
     .mk "identifier" "Foo" 0 0 [],
     .mk "argument_list" "(Base)" 0 0
       [.mk "(" "(" 0 0 [],
        .mk "identifier" "Base" 0 0 [],
        .mk ")" ")" 0 0 []],
     .mk ":" ":" 0 0 [],
     .mk "block" "pass" 0 0 [.mk "pass_statement" "pass" 0 0 []]]

/-- Induction over a syntax tree: to prove a property of every node it is
enough to prove it for a node assuming it for all its children. -/
theorem TSNode.memRec {P : TSNode → Prop}
    (h : ∀ ty text sr er cs, (∀ c ∈ cs, P c) → P (TSNode.mk ty text sr er cs)) :
    ∀ n, P n := by
  have key : ∀ k : Nat, ∀ n : TSNode, sizeOf n ≤ k → P n := by
    intro k
    induction k with
    | zero =>
      intro n hn
      cases n with
      | mk t x r e cs => simp at hn
    | succ k ih =>
      intro n hn
      cases n with
      | mk t x r e cs =>
        apply h
        intro c hc
        apply ih
        have h1 := List.sizeOf_lt_of_mem hc
        have h2 : sizeOf (TSNode.mk t x r e cs)
            = 1 + sizeOf t + sizeOf x + sizeOf r + sizeOf e + sizeOf cs := by
          simp
        omega
  intro n
  exact key (sizeOf n) n (le_refl _)

/-- A state predicate preserved by every dispatch step is preserved by the
child loop of the signature_based_rag walker. -/
theorem Sig.parseChildren_pres (path : String) (P : SigState → Prop)
    (l : List TSNode)
    (hstep : ∀ c ∈ l, ∀ parent s, P s → P (Sig.parseNode c path parent s)) :
    ∀ parent s, P s → P (Sig.parseChildren l path parent s) := by
  induction l with
  | nil =>
    intro parent s hs
    simpa [Sig.parseChildren] using hs
  | cons c cs ih =>
    intro parent s hs
    simp only [Sig.parseChildren]
    exact ih (fun d hd => hstep d (List.mem_cons_of_mem _ hd)) parent _
      (hstep c (List.mem_cons_self _ _) parent s hs)

/-- A state predicate preserved by every handler of the signature_based_rag
walker is preserved by the whole recursive walk. -/
theorem Sig.parseNode_pres (path : String) (P : SigState → Prop)
    (hstep : ∀ n parent s, P s → P (Sig.handleOne n path parent s).1) :
    ∀ n parent s, P s → P (Sig.parseNode n path parent s) := by
  refine TSNode.memRec
    (P := fun n => ∀ parent s, P s → P (Sig.parseNode n path parent s)) ?_
  intro ty text sr er cs IH parent s hs
  simp only [Sig.parseNode]
  exact Sig.parseChildren_pres path P cs IH _ _ (hstep _ parent s hs)

/-- A state predicate preserved by every individual handler of the
signature_based_rag revision is preserved by one dispatch step. -/
theorem Sig.handleOne_pres (path : String) (P : SigState → Prop)
    (hmod : ∀ n fname s, P s → P (Sig.handleModule n path fname s))
    (hcls : ∀ n parent s, P s → P (Sig.handleClassDefinition n path parent s).1)
    (hfun : ∀ n parent s, P s → P (Sig.handleFunctionDefinition n path parent s).1)
    (himp : ∀ n s, P s → P (Sig.collectImport n s))
    (hcall : ∀ n parent s, P s → P (Sig.handleMethodCall n parent s)) :
    ∀ n parent s, P s → P (Sig.handleOne n path parent s).1 := by
  intro n parent s hs
  unfold Sig.handleOne
  repeat' split
  · exact hmod n _ s hs
  · exact hcls n parent s hs
  · exact hfun n parent s hs
  · exact himp n s hs
  · exact hcall n parent s hs
  · exact hs

/-- A state predicate preserved by every dispatch step is preserved by the
child loop of the src/src walker. -/
theorem Src.parseChildren_presSrc (hashFn : String → Int) (path : String)
    (P : SrcState → Prop) (l : List TSNode)
    (hstep : ∀ c ∈ l, ∀ parent s, P s → P (Src.parseNode hashFn c path parent s)) :
    ∀ parent s, P s → P (Src.parseChildren hashFn l path parent s) := by
  induction l with
  | nil =>
    intro parent s hs
    simpa [Src.parseChildren] using hs
  | cons c cs ih =>
    intro parent s hs
    simp only [Src.parseChildren]
    exact ih (fun d hd => hstep d (List.mem_cons_of_mem _ hd)) parent _
      (hstep c (List.mem_cons_self _ _) parent s hs)

/-- A state predicate preserved by every handler of the src/src walker is
preserved by the whole recursive walk. -/
theorem Src.parseNode_presSrc (hashFn : String → Int) (path : String)
    (P : SrcState → Prop)
    (hstep : ∀ n parent s, P s → P (Src.handleOne hashFn n path parent s).1) :
    ∀ n parent s, P s → P (Src.parseNode hashFn n path parent s) := by
  refine TSNode.memRec
    (P := fun n => ∀ parent s, P s → P (Src.parseNode hashFn n path parent s)) ?_
  intro ty text sr er cs IH parent s hs
  simp only [Src.parseNode]
  exact Src.parseChildren_presSrc hashFn path P cs IH _ _ (hstep _ parent s hs)

/-- A state predicate preserved by every individual handler of the src/src
revision is preserved by one dispatch step. -/
theorem Src.handleOne_presSrc (hashFn : String → Int) (path : String)
    (P : SrcState → Prop)
    (hmod : ∀ n fname s, P s → P (Src.handleModule n path fname s))
    (hcls : ∀ n parent s, P s → P (Src.handleClassDefinition n path parent s).1)
    (hfun : ∀ n parent s, P s → P (Src.handleFunctionDefinition n path parent s).1)
    (himp : ∀ n s, P s → P (Src.handleImport hashFn n path s))
    (hcall : ∀ n parent s, P s → P (Src.handleMethodCall n path parent s)) :
    ∀ n parent s, P s → P (Src.handleOne hashFn n path parent s).1 := by
  intro n parent s hs
  unfold Src.handleOne
  repeat' split
  · exact hmod n _ s hs
  · exact hcls n parent s hs
  · exact hfun n parent s hs
  · exact himp n s hs
  · exact hcall n parent s hs
  · exact hs

/-- An anonymous or empty-named class definition is skipped and resets the
returned enclosing id to `none`. -/
theorem Sig.handleClassDefinition_anon (n : TSNode) (path : String)
    (parent : Option String) (s : SigState)
    (h : extractIdentifier n = none ∨ extractIdentifier n = some "") :
    Sig.handleClassDefinition n path parent s = (s, none) := by
  unfold Sig.handleClassDefinition
  rcases h with h | h <;> simp [h]

/-- An anonymous or empty-named function definition is skipped and resets the
returned enclosing id to `none`. -/
theorem Sig.handleFunctionDefinition_anon (n : TSNode) (path : String)
    (parent : Option String) (s : SigState)
    (h : extractIdentifier n = none ∨ extractIdentifier n = some "") :
    Sig.handleFunctionDefinition n path parent s = (s, none) := by
  unfold Sig.handleFunctionDefinition
  rcases h with h | h <;> simp [h]

/-- Full characterization of a first-time class staging in the
signature_based_rag revision. -/
theorem Sig.handleClassDefinition_eq (n : TSNode) (path : String)
    (parent : Option String) (s : SigState) (name : String)
    (h1 : extractIdentifier n = some name) (h2 : ¬ name = "")
    (h3 : ¬ ("class:" ++ name) ∈ s.processed) :
    Sig.handleClassDefinition n path parent s =
      ({ processed := s.processed ++ ["class:" ++ name],
         imports := s.imports,
         nodes := s.nodes ++
           [⟨["Class"], "class:" ++ name,
             .cls name "" path (extractBaseClasses n) n.text⟩],
         rels := s.rels ++
           [⟨"class:" ++ name, defaultToFile parent path, "DEFINED_IN", []⟩] },
       some ("class:" ++ name)) := by
  unfold Sig.handleClassDefinition
  rw [h1]
  simp [h2, h3, Sig.addRelationship]

/-- Full characterization of a first-time function staging in the
signature_based_rag revision. -/
theorem Sig.handleFunctionDefinition_eq (n : TSNode) (path : String)
    (parent : Option String) (s : SigState) (name : String)
    (h1 : extractIdentifier n = some name) (h2 : ¬ name = "")
    (h3 : ¬ ("method:" ++ name) ∈ s.processed) :
    Sig.handleFunctionDefinition n path parent s =
      ({ processed := s.processed ++ ["method:" ++ name],
         imports := s.imports,
         nodes := s.nodes ++
           [⟨["Method"], "method:" ++ name,
             .method name "" path
               (if n.children.any (fun c => c.ty == "async") then "async" else "sync")
               (Sig.extractParameters n) n.text⟩],
         rels := s.rels ++
           [⟨"method:" ++ name, defaultToFile parent path, "DEFINED_IN", []⟩] },
       some ("method:" ++ name)) := by
  unfold Sig.handleFunctionDefinition
  rw [h1]
  simp [h2, h3, Sig.addRelationship]

/-- A call expression encountered with no enclosing id stages nothing. -/
theorem Sig.handleMethodCall_none (n : TSNode) (s : SigState) :
    Sig.handleMethodCall n none s = s := by
  cases hc : n.children with
  | nil => simp [Sig.handleMethodCall, hc]
  | cons m rest =>
    cases hm : extractMethodName m <;> simp [Sig.handleMethodCall, hc, hm]

/-- A call expression whose callee resolves to a truthy name, encountered with
a truthy enclosing id, stages exactly one `CALLED_IN` relationship. -/
theorem Sig.handleMethodCall_eq (n : TSNode) (pid : String) (s : SigState)
    (mNode : TSNode) (rest : List TSNode) (m : String)
    (h1 : n.children = mNode :: rest) (h2 : extractMethodName mNode = some m)
    (h3 : ¬ m = "") (h4 : ¬ pid = "") :
    Sig.handleMethodCall n (some pid) s =
      { s with rels := s.rels ++ [⟨"method:" ++ m, pid, "CALLED_IN", []⟩] } := by
  simp [Sig.handleMethodCall, h1, h2, h3, h4, Sig.addRelationship]


/-- Shape of `_handle_module` (signature_based_rag): either a no-op or the
append of one File-labeled node. -/
theorem Sig.handleModule_shape (n : TSNode) (path fname : String) (s : SigState) :
    Sig.handleModule n path fname s = s ∨
    (¬ ("file:" ++ fname) ∈ s.processed ∧
      Sig.handleModule n path fname s =
        { processed := s.processed ++ ["file:" ++ fname], imports := s.imports,
          nodes := s.nodes ++
            [⟨["File"], "file:" ++ fname, .file fname "" path n.text⟩],
          rels := s.rels }) := by
  by_cases h : ("file:" ++ fname) ∈ s.processed
  · left
    simp [Sig.handleModule, h]
  · right
    exact ⟨h, by simp [Sig.handleModule, h]⟩

/-- Shape of `_handle_class_definition` (signature_based_rag): either a no-op
state or a first-time staging of one Class node plus its `DEFINED_IN` edge. -/
theorem Sig.handleClassDefinition_shape (n : TSNode) (path : String)
    (parent : Option String) (s : SigState) :
    (Sig.handleClassDefinition n path parent s).1 = s ∨
    (∃ name, extractIdentifier n = some name ∧ ¬ name = "" ∧
      ¬ ("class:" ++ name) ∈ s.processed ∧
      (Sig.handleClassDefinition n path parent s).1 =
        { processed := s.processed ++ ["class:" ++ name], imports := s.imports,
          nodes := s.nodes ++
            [⟨["Class"], "class:" ++ name,
              .cls name "" path (extractBaseClasses n) n.text⟩],
          rels := s.rels ++
            [⟨"class:" ++ name, defaultToFile parent path, "DEFINED_IN", []⟩] }) := by
  cases hi : extractIdentifier n with
  | none => left; simp [Sig.handleClassDefinition, hi]
  | some name =>
    by_cases h2 : name = ""
    · left; simp [Sig.handleClassDefinition, hi, h2]
    · by_cases h3 : ("class:" ++ name) ∈ s.processed
      · left; simp [Sig.handleClassDefinition, hi, h2, h3]
      · right
        exact ⟨name, rfl, h2, h3,
          by rw [Sig.handleClassDefinition_eq n path parent s name hi h2 h3]⟩

/-- Shape of `_handle_function_definition` (signature_based_rag): either a
no-op state or a first-time staging of one Method node plus its `DEFINED_IN`
edge. -/
theorem Sig.handleFunctionDefinition_shape (n : TSNode) (path : String)
    (parent : Option String) (s : SigState) :
    (Sig.handleFunctionDefinition n path parent s).1 = s ∨
    (∃ name, extractIdentifier n = some name ∧ ¬ name = "" ∧
      ¬ ("method:" ++ name) ∈ s.processed ∧
      (Sig.handleFunctionDefinition n path parent s).1 =
        { processed := s.processed ++ ["method:" ++ name], imports := s.imports,
          nodes := s.nodes ++
            [⟨["Method"], "method:" ++ name,
              .method name "" path
                (if n.children.any (fun c => c.ty == "async") then "async" else "sync")
                (Sig.extractParameters n) n.text⟩],
          rels := s.rels ++
            [⟨"method:" ++ name, defaultToFile parent path, "DEFINED_IN", []⟩] }) := by
  cases hi : extractIdentifier n with
  | none => left; simp [Sig.handleFunctionDefinition, hi]
  | some name =>
    by_cases h2 : name = ""
    · left; simp [Sig.handleFunctionDefinition, hi, h2]
    · by_cases h3 : ("method:" ++ name) ∈ s.processed
      · left; simp [Sig.handleFunctionDefinition, hi, h2, h3]
      · right
        exact ⟨name, rfl, h2, h3,
          by rw [Sig.handleFunctionDefinition_eq n path parent s name hi h2 h3]⟩

/-- Shape of `_collect_import` (signature_based_rag): either a no-op or the
append of one accumulated import text. -/
theorem Sig.collectImport_shape (n : TSNode) (s : SigState) :
    (pyStrip n.text = "" ∧ Sig.collectImport n s = s) ∨
    (¬ pyStrip n.text = "" ∧
      Sig.collectImport n s = { s with imports := s.imports ++ [pyStrip n.text] }) := by
  by_cases h : pyStrip n.text = ""
  · left; exact ⟨h, by simp [Sig.collectImport, h]⟩
  · right; exact ⟨h, by simp [Sig.collectImport, h]⟩

/-- Shape of `_handle_method_call` (signature_based_rag): either a no-op or
the append of one `CALLED_IN` relationship ending at the present enclosing
id. -/
theorem Sig.handleMethodCall_shape (n : TSNode) (parent : Option String)
    (s : SigState) :
    Sig.handleMethodCall n parent s = s ∨
    (∃ m pid, parent = some pid ∧
      Sig.handleMethodCall n parent s =
        { s with rels := s.rels ++ [⟨"method:" ++ m, pid, "CALLED_IN", []⟩] }) := by
  cases hc : n.children with
  | nil => left; simp [Sig.handleMethodCall, hc]
  | cons m rest =>
    cases hm : extractMethodName m with
    | none =>
      left
      cases parent <;> simp [Sig.handleMethodCall, hc, hm]
    | some name =>
      cases parent with
      | none => left; simp [Sig.handleMethodCall, hc, hm]
      | some pid =>
        by_cases hz : name = "" ∨ pid = ""
        · left; simp [Sig.handleMethodCall, hc, hm, hz]
        · right
          exact ⟨name, pid, rfl,
            by simp [Sig.handleMethodCall, hc, hm, hz, Sig.addRelationship]⟩

/-- Shape of `_create_import_node` (signature_based_rag): a no-op when no text
was accumulated, otherwise the append of the single aggregate Import node and
its `IMPORTS_FOR` edge. -/
theorem Sig.createImportNode_shape (path : String) (s : SigState) :
    (s.imports = [] ∧ Sig.createImportNode path s = s) ∨
    (¬ s.imports = [] ∧
      Sig.createImportNode path s =
        { processed := s.processed ++ ["import:" ++ pathName path],
          imports := s.imports,
          nodes := s.nodes ++
            [⟨["Import"], "import:" ++ pathName path,
              .imp "imports" ("All imports for " ++ pathName path) path
                (String.intercalate "\n" s.imports)⟩],
          rels := s.rels ++
            [⟨"import:" ++ pathName path, "file:" ++ pathName path,
              "IMPORTS_FOR", []⟩] }) := by
  by_cases h : s.imports = []
  · left; exact ⟨h, by simp [Sig.createImportNode, h]⟩
  · right; exact ⟨h, by simp [Sig.createImportNode, h, Sig.addRelationship]⟩

/-- Every handler of the signature_based_rag revision only appends to the
relationship stream. -/
theorem Sig.handleOne_rels_mono (path : String) (e : GraphRel) :
    ∀ n parent s, e ∈ s.rels → e ∈ (Sig.handleOne n path parent s).1.rels := by
  apply Sig.handleOne_pres path (fun st => e ∈ st.rels)
  · intro n fname s hs
    rcases Sig.handleModule_shape n path fname s with h | ⟨_, h⟩ <;> rw [h] <;>
      simpa using hs
  · intro n parent s hs
    rcases Sig.handleClassDefinition_shape n path parent s with h | ⟨name, _, _, _, h⟩ <;>
      rw [h] <;> simp [hs]
  · intro n parent s hs
    rcases Sig.handleFunctionDefinition_shape n path parent s with h | ⟨name, _, _, _, h⟩ <;>
      rw [h] <;> simp [hs]
  · intro n s hs
    rcases Sig.collectImport_shape n s with ⟨_, h⟩ | ⟨_, h⟩ <;> rw [h] <;> simpa using hs
  · intro n parent s hs
    rcases Sig.handleMethodCall_shape n parent s with h | ⟨m, pid, _, h⟩ <;> rw [h] <;>
      simp [hs]

/-- A relationship staged before a subtree walk of the signature_based_rag
revision is still staged after it. -/
theorem Sig.parseNode_rels_mono (path : String) (e : GraphRel) :
    ∀ n parent s, e ∈ s.rels → e ∈ (Sig.parseNode n path parent s).rels :=
  Sig.parseNode_pres path (fun st => e ∈ st.rels) (Sig.handleOne_rels_mono path e)

/-- Every dispatch step of the signature_based_rag revision preserves
containment completeness. -/
theorem Sig.handleOne_contained (path : String) :
    ∀ n parent s, Sig.Contained s → Sig.Contained (Sig.handleOne n path parent s).1 := by
  apply Sig.handleOne_pres path Sig.Contained
  · intro n fname s hs
    rcases Sig.handleModule_shape n path fname s with h | ⟨_, h⟩
    · rwa [h]
    · rw [h]
      intro nd hnd hlab
      simp only [List.mem_append, List.mem_singleton] at hnd
      rcases hnd with hnd | rfl
      · exact hs nd hnd hlab
      · simp at hlab
  · intro n parent s hs
    rcases Sig.handleClassDefinition_shape n path parent s with h | ⟨name, _, _, _, h⟩
    · rwa [h]
    · rw [h]
      intro nd hnd hlab
      simp only [List.mem_append, List.mem_singleton] at hnd
      rcases hnd with hnd | rfl
      · obtain ⟨r, hr, hr1, hr2⟩ := hs nd hnd hlab
        exact ⟨r, by simp [List.mem_append, hr], hr1, hr2⟩
      · exact ⟨⟨"class:" ++ name, defaultToFile parent path, "DEFINED_IN", []⟩,
          by simp, rfl, rfl⟩
  · intro n parent s hs
    rcases Sig.handleFunctionDefinition_shape n path parent s with h | ⟨name, _, _, _, h⟩
    · rwa [h]
    · rw [h]
      intro nd hnd hlab
      simp only [List.mem_append, List.mem_singleton] at hnd
      rcases hnd with hnd | rfl
      · obtain ⟨r, hr, hr1, hr2⟩ := hs nd hnd hlab
        exact ⟨r, by simp [List.mem_append, hr], hr1, hr2⟩
      · exact ⟨⟨"method:" ++ name, defaultToFile parent path, "DEFINED_IN", []⟩,
          by simp, rfl, rfl⟩
  · intro n s hs
    rcases Sig.collectImport_shape n s with ⟨_, h⟩ | ⟨_, h⟩
    · rwa [h]
    · rw [h]
      intro nd hnd hlab
      exact hs nd hnd hlab
  · intro n parent s hs
    rcases Sig.handleMethodCall_shape n parent s with h | ⟨m, pid, _, h⟩
    · rwa [h]
    · rw [h]
      intro nd hnd hlab
      obtain ⟨r, hr, hr1, hr2⟩ := hs nd hnd hlab
      exact ⟨r, by simp [List.mem_append, hr], hr1, hr2⟩

/-- The whole recursive walk of the signature_based_rag revision preserves
containment completeness. -/
theorem Sig.parseNode_contained (path : String) :
    ∀ n parent s, Sig.Contained s → Sig.Contained (Sig.parseNode n path parent s) :=
  Sig.parseNode_pres path Sig.Contained (Sig.handleOne_contained path)

/-- `_create_import_node` preserves containment completeness (it stages only
an Import-labeled node). -/
theorem Sig.createImportNode_contained (path : String) (s : SigState)
    (hs : Sig.Contained s) : Sig.Contained (Sig.createImportNode path s) := by
  rcases Sig.createImportNode_shape path s with ⟨_, h⟩ | ⟨_, h⟩
  · rwa [h]
  · rw [h]
    intro nd hnd hlab
    simp only [List.mem_append, List.mem_singleton] at hnd
    rcases hnd with hnd | rfl
    · obtain ⟨r, hr, hr1, hr2⟩ := hs nd hnd hlab
      exact ⟨r, by simp [List.mem_append, hr], hr1, hr2⟩
    · simp at hlab

/-- Every dispatch step of the signature_based_rag revision stages only
File/Class/Method nodes and only `DEFINED_IN`/`CALLED_IN` relationships. -/
theorem Sig.handleOne_coreOnly (path : String) :
    ∀ n parent s, Sig.CoreOnly s → Sig.CoreOnly (Sig.handleOne n path parent s).1 := by
  apply Sig.handleOne_pres path Sig.CoreOnly
  · intro n fname s hs
    rcases Sig.handleModule_shape n path fname s with h | ⟨_, h⟩
    · rwa [h]
    · rw [h]
      obtain ⟨hn, hr⟩ := hs
      constructor
      · intro nd hnd
        simp only [List.mem_append, List.mem_singleton] at hnd
        rcases hnd with hnd | rfl
        · exact hn nd hnd
        · simp
      · exact hr
  · intro n parent s hs
    rcases Sig.handleClassDefinition_shape n path parent s with h | ⟨name, _, _, _, h⟩
    · rwa [h]
    · rw [h]
      obtain ⟨hn, hr⟩ := hs
      constructor
      · intro nd hnd
        simp only [List.mem_append, List.mem_singleton] at hnd
        rcases hnd with hnd | rfl
        · exact hn nd hnd
        · simp
      · intro r hrr
        simp only [List.mem_append, List.mem_singleton] at hrr
        rcases hrr with hrr | rfl
        · exact hr r hrr
        · simp
  · intro n parent s hs
    rcases Sig.handleFunctionDefinition_shape n path parent s with h | ⟨name, _, _, _, h⟩
    · rwa [h]
    · rw [h]
      obtain ⟨hn, hr⟩ := hs
      constructor
      · intro nd hnd
        simp only [List.mem_append, List.mem_singleton] at hnd
        rcases hnd with hnd | rfl
        · exact hn nd hnd
        · simp
      · intro r hrr
        simp only [List.mem_append, List.mem_singleton] at hrr
        rcases hrr with hrr | rfl
        · exact hr r hrr
        · simp
  · intro n s hs
    rcases Sig.collectImport_shape n s with ⟨_, h⟩ | ⟨_, h⟩
    · rwa [h]
    · rw [h]
      exact ⟨hs.1, hs.2⟩
  · intro n parent s hs
    rcases Sig.handleMethodCall_shape n parent s with h | ⟨m, pid, _, h⟩
    · rwa [h]
    · rw [h]
      obtain ⟨hn, hr⟩ := hs
      refine ⟨hn, ?_⟩
      intro r hrr
      simp only [List.mem_append, List.mem_singleton] at hrr
      rcases hrr with hrr | rfl
      · exact hr r hrr
      · simp

/-- The whole recursive walk of the signature_based_rag revision stages no
Import node and no `IMPORTS_FOR` relationship. -/
theorem Sig.parseNode_coreOnly (path : String) :
    ∀ n parent s, Sig.CoreOnly s → Sig.CoreOnly (Sig.parseNode n path parent s) :=
  Sig.parseNode_pres path Sig.CoreOnly (Sig.handleOne_coreOnly path)

/-- Decomposition of the encounter-order import texts at one node. -/
theorem importTexts_mk (ty text : String) (sr er : Nat) (cs : List TSNode) :
    importTexts (TSNode.mk ty text sr er cs) =
      (if (ty = "import_statement" ∨ ty = "import_from_statement") ∧
          ¬ pyStrip text = ""
       then [pyStrip text] else []) ++ importTextsList cs := by
  unfold importTexts importTextsList
  rw [importNodes]
  by_cases h : ty = "import_statement" ∨ ty = "import_from_statement"
  · by_cases hz : pyStrip text = "" <;>
      simp [TSNode.ty, TSNode.text, h, hz, List.filter_append]
  · simp [TSNode.ty, h, List.filter_append]

/-- Decomposition of the encounter-order import texts over siblings. -/
theorem importTextsList_cons (c : TSNode) (cs : List TSNode) :
    importTextsList (c :: cs) = importTexts c ++ importTextsList cs := by
  unfold importTextsList importTexts
  rw [importNodesList]
  simp [List.filter_append]

/-- One dispatch step of the signature_based_rag revision appends to the text
accumulator exactly the node's own contribution. -/
theorem Sig.handleOne_imports (path : String) (n : TSNode) (parent : Option String)
    (s : SigState) :
    (Sig.handleOne n path parent s).1.imports =
      s.imports ++
        (if (n.ty = "import_statement" ∨ n.ty = "import_from_statement") ∧
            ¬ pyStrip n.text = ""
         then [pyStrip n.text] else []) := by
  by_cases h1 : n.ty = "module"
  · rcases Sig.handleModule_shape n path (pathName path) s with h | ⟨_, h⟩ <;>
      simp [Sig.handleOne, h1, h]
  · by_cases h2 : n.ty = "class_definition"
    · rcases Sig.handleClassDefinition_shape n path parent s with h | ⟨name, _, _, _, h⟩ <;>
        simp [Sig.handleOne, h1, h2, h]
    · by_cases h3 : n.ty = "function_definition"
      · rcases Sig.handleFunctionDefinition_shape n path parent s with h | ⟨name, _, _, _, h⟩ <;>
          simp [Sig.handleOne, h1, h2, h3, h]
      · by_cases h4 : n.ty = "import_statement" ∨ n.ty = "import_from_statement"
        · rcases Sig.collectImport_shape n s with ⟨hz, h⟩ | ⟨hz, h⟩ <;>
            simp [Sig.handleOne, h1, h2, h3, h4, h, hz]
        · by_cases h5 : n.ty = "call"
          · rcases Sig.handleMethodCall_shape n parent s with h | ⟨m, pid, _, h⟩ <;>
              simp [Sig.handleOne, h1, h2, h3, h4, h5, h]
          · simp [Sig.handleOne, h1, h2, h3, h4, h5]

/-- After walking a subtree, the import accumulator has grown by exactly the
stripped, non-empty import statement texts of that subtree, in encounter
order. -/
theorem Sig.parseNode_imports (path : String) :
    ∀ n parent s,
      (Sig.parseNode n path parent s).imports = s.imports ++ importTexts n := by
  refine TSNode.memRec
    (P := fun n => ∀ parent s,
      (Sig.parseNode n path parent s).imports = s.imports ++ importTexts n) ?_
  intro ty text sr er cs IH parent s
  have hlist : ∀ l, (∀ c ∈ l, ∀ parent s,
        (Sig.parseNode c path parent s).imports = s.imports ++ importTexts c) →
      ∀ parent s,
        (Sig.parseChildren l path parent s).imports = s.imports ++ importTextsList l := by
    intro l
    induction l with
    | nil =>
      intro _ parent s
      simp [Sig.parseChildren, importTextsList, importNodesList]
    | cons c cs ih =>
      intro hIH parent s
      simp only [Sig.parseChildren]
      rw [ih (fun d hd => hIH d (List.mem_cons_of_mem _ hd)) parent _,
          hIH c (List.mem_cons_self _ _) parent s, importTextsList_cons,
          List.append_assoc]
  simp only [Sig.parseNode]
  rw [hlist cs IH _ _, Sig.handleOne_imports path _ parent s, importTexts_mk,
      List.append_assoc]
  simp [TSNode.ty, TSNode.text]

/-- Shape of `_add_relationship` (src/src): a suppressed duplicate key leaves
the state unchanged; otherwise the staged key is fresh and the record is
appended. -/
theorem Src.addRelationship_shape (a b c : String) (s : SrcState) :
    Src.addRelationship a b c s = s ∨
    (¬ relKey a c b ∈ s.rels.map (fun r => relKey r.start_id r.label r.end_id) ∧
      Src.addRelationship a b c s = { s with rels := s.rels ++ [⟨a, b, c, []⟩] }) := by
  by_cases h : (s.rels.any
      (fun r => relKey a c b == relKey r.start_id r.label r.end_id)) = true
  · left
    simp [Src.addRelationship, h]
  · right
    rw [Bool.not_eq_true, List.any_eq_false] at h
    constructor
    · intro hk
      simp only [List.mem_map] at hk
      obtain ⟨r, hr, hfr⟩ := hk
      exact h r hr (by simp [hfr])
    · have hfalse : ¬ (s.rels.any
          (fun r => relKey a c b == relKey r.start_id r.label r.end_id)) = true := by
        intro hx
        rw [List.any_eq_true] at hx
        obtain ⟨r, hr, hb⟩ := hx
        exact h r hr hb
      simp only [Src.addRelationship]
      rw [if_neg hfalse]

/-- Staging one fresh-id node preserves the src/src uniqueness invariant. -/
theorem Src.Uniq.stage (s : SrcState) (nd : SrcNode) (h : Src.Uniq s)
    (hid : ¬ nd.id ∈ s.processed) :
    Src.Uniq { s with nodes := s.nodes ++ [nd],
                      processed := s.processed ++ [nd.id] } := by
  obtain ⟨h1, h2, h3⟩ := h
  refine ⟨?_, ?_, h3⟩
  · intro x hx
    simp only [List.mem_append, List.mem_singleton] at hx ⊢
    rcases hx with hx | rfl
    · exact Or.inl (h1 x hx)
    · exact Or.inr rfl
  · simp only [List.map_append, List.map_cons, List.map_nil]
    rw [List.nodup_append]
    refine ⟨h2, List.nodup_singleton _, ?_⟩
    intro a ha hb
    simp only [List.mem_singleton] at hb
    subst hb
    simp only [List.mem_map] at ha
    obtain ⟨x, hx, hxid⟩ := ha
    exact hid (hxid ▸ h1 x hx)

/-- `_add_relationship` (src/src) preserves the uniqueness invariant. -/
theorem Src.addRelationship_uniq (a b c : String) (s : SrcState)
    (h : Src.Uniq s) : Src.Uniq (Src.addRelationship a b c s) := by
  rcases Src.addRelationship_shape a b c s with hs | ⟨hk, hs⟩
  · rwa [hs]
  · rw [hs]
    obtain ⟨h1, h2, h3⟩ := h
    refine ⟨h1, h2, ?_⟩
    simp only [List.map_append, List.map_cons, List.map_nil]
    rw [List.nodup_append]
    refine ⟨h3, List.nodup_singleton _, ?_⟩
    intro x hx hxx
    simp only [List.mem_singleton] at hxx
    subst hxx
    exact hk hx

/-- Full characterization of a first-time class staging in the src/src
revision. -/
theorem Src.handleClassDefinition_eqSrc (n : TSNode) (path : String)
    (parent : Option String) (s : SrcState) (name : String)
    (h1 : extractIdentifier n = some name) (h2 : ¬ name = "")
    (h3 : ¬ ("class:" ++ name) ∈ s.processed) :
    Src.handleClassDefinition n path parent s =
      (Src.addRelationship ("class:" ++ name) (defaultToFile parent path)
        "DEFINED_IN"
        { s with
          nodes := s.nodes ++
            [⟨"class:" ++ name, ["Class"],
              .cls name ((Src.extractDocstring n).getD "") path
                (extractBaseClasses n) (n.startRow + 1) (n.endRow + 1)⟩],
          processed := s.processed ++ ["class:" ++ name] },
       some ("class:" ++ name)) := by
  unfold Src.handleClassDefinition
  rw [h1]
  simp [h2, h3]

/-- Full characterization of a first-time function staging in the src/src
revision. -/
theorem Src.handleFunctionDefinition_eqSrc (n : TSNode) (path : String)
    (parent : Option String) (s : SrcState) (name : String)
    (h1 : extractIdentifier n = some name) (h2 : ¬ name = "")
    (h3 : ¬ ("method:" ++ name) ∈ s.processed) :
    Src.handleFunctionDefinition n path parent s =
      (Src.addRelationship ("method:" ++ name) (defaultToFile parent path)
        "DEFINED_IN"
        { s with
          nodes := s.nodes ++
            [⟨"method:" ++ name, ["Method"],
              .method name ((Src.extractDocstring n).getD "") path
                (if n.children.any (fun c => c.ty == "async") then "async" else "sync")
                (Src.extractParameters n) (n.startRow + 1) (n.endRow + 1)⟩],
          processed := s.processed ++ ["method:" ++ name] },
       some ("method:" ++ name)) := by
  unfold Src.handleFunctionDefinition
  rw [h1]
  simp [h2, h3]

/-- Shape of `_handle_module` (src/src). -/
theorem Src.handleModule_shapeSrc (n : TSNode) (path fname : String) (s : SrcState) :
    Src.handleModule n path fname s = s ∨
    (¬ ("file:" ++ fname) ∈ s.processed ∧
      Src.handleModule n path fname s =
        { s with
          nodes := s.nodes ++
            [⟨"file:" ++ fname, ["File"], .file fname "" path n.text.length⟩],
          processed := s.processed ++ ["file:" ++ fname] }) := by
  by_cases h : ("file:" ++ fname) ∈ s.processed
  · left
    simp [Src.handleModule, h]
  · right
    exact ⟨h, by simp [Src.handleModule, h]⟩

/-- Shape of `_handle_class_definition` (src/src): a no-op state or a fresh
staging followed by `_add_relationship`. -/
theorem Src.handleClassDefinition_shapeSrc (n : TSNode) (path : String)
    (parent : Option String) (s : SrcState) :
    (Src.handleClassDefinition n path parent s).1 = s ∨
    (∃ nd : SrcNode, ¬ nd.id ∈ s.processed ∧
      (Src.handleClassDefinition n path parent s).1 =
        Src.addRelationship nd.id (defaultToFile parent path) "DEFINED_IN"
          { s with nodes := s.nodes ++ [nd],
                   processed := s.processed ++ [nd.id] }) := by
  cases hi : extractIdentifier n with
  | none => left; simp [Src.handleClassDefinition, hi]
  | some name =>
    by_cases h2 : name = ""
    · left; simp [Src.handleClassDefinition, hi, h2]
    · by_cases h3 : ("class:" ++ name) ∈ s.processed
      · left; simp [Src.handleClassDefinition, hi, h2, h3]
      · right
        refine ⟨⟨"class:" ++ name, ["Class"],
          .cls name ((Src.extractDocstring n).getD "") path (extractBaseClasses n)
            (n.startRow + 1) (n.endRow + 1)⟩, h3, ?_⟩
        rw [Src.handleClassDefinition_eqSrc n path parent s name hi h2 h3]

/-- Shape of `_handle_function_definition` (src/src). -/
theorem Src.handleFunctionDefinition_shapeSrc (n : TSNode) (path : String)
    (parent : Option String) (s : SrcState) :
    (Src.handleFunctionDefinition n path parent s).1 = s ∨
    (∃ nd : SrcNode, ¬ nd.id ∈ s.processed ∧
      (Src.handleFunctionDefinition n path parent s).1 =
        Src.addRelationship nd.id (defaultToFile parent path) "DEFINED_IN"
          { s with nodes := s.nodes ++ [nd],
                   processed := s.processed ++ [nd.id] }) := by
  cases hi : extractIdentifier n with
  | none => left; simp [Src.handleFunctionDefinition, hi]
  | some name =>
    by_cases h2 : name = ""
    · left; simp [Src.handleFunctionDefinition, hi, h2]
    · by_cases h3 : ("method:" ++ name) ∈ s.processed
      · left; simp [Src.handleFunctionDefinition, hi, h2, h3]
      · right
        refine ⟨⟨"method:" ++ name, ["Method"],
          .method name ((Src.extractDocstring n).getD "") path
            (if n.children.any (fun c => c.ty == "async") then "async" else "sync")
            (Src.extractParameters n) (n.startRow + 1) (n.endRow + 1)⟩, h3, ?_⟩
        rw [Src.handleFunctionDefinition_eqSrc n path parent s name hi h2 h3]

/-- Shape of `_handle_import` (src/src). -/
theorem Src.handleImport_shape (hashFn : String → Int) (n : TSNode)
    (path : String) (s : SrcState) :
    Src.handleImport hashFn n path s = s ∨
    (∃ nd : SrcNode, ¬ nd.id ∈ s.processed ∧
      Src.handleImport hashFn n path s =
        Src.addRelationship nd.id ("file:" ++ pathName path) "IMPORTED_IN"
          { s with nodes := s.nodes ++ [nd],
                   processed := s.processed ++ [nd.id] }) := by
  unfold Src.handleImport
  by_cases h1 : pyStrip n.text = ""
  · left; simp [h1]
  · by_cases h2 : (if n.ty = "import_statement" then
        n.children.flatMap (fun child =>
          if child.ty = "dotted_as_names" ∨ child.ty = "aliased_import" then
            Src.extractImportItems child
          else [])
      else if n.ty = "import_from_statement" then
        n.children.flatMap (fun child =>
          if child.ty = "import_list" then Src.extractImportItems child else [])
      else []) = []
    · left; simp [h1, h2]
    · by_cases h3 : ("import:" ++ pathName path ++ ":" ++ toString (hashFn n.text)) ∈
          s.processed
      · left; simp [h1, h2, h3]
      · right
        refine ⟨⟨"import:" ++ pathName path ++ ":" ++ toString (hashFn n.text),
          ["Import"],
          .imp "import" n.text path
            (if n.ty = "import_statement" then
              n.children.flatMap (fun child =>
                if child.ty = "dotted_as_names" ∨ child.ty = "aliased_import" then
                  Src.extractImportItems child
                else [])
            else if n.ty = "import_from_statement" then
              n.children.flatMap (fun child =>
                if child.ty = "import_list" then Src.extractImportItems child else [])
            else []) (n.startRow + 1)⟩, h3, ?_⟩
        simp [h1, h2, h3]

/-- Shape of `_handle_method_call` (src/src). -/
theorem Src.handleMethodCall_shapeSrc (n : TSNode) (path : String)
    (parent : Option String) (s : SrcState) :
    Src.handleMethodCall n path parent s = s ∨
    (∃ m pid, parent = some pid ∧
      Src.handleMethodCall n path parent s =
        Src.addRelationship ("method:" ++ m) pid "CALLED_IN" s) := by
  cases hc : n.children with
  | nil => left; simp [Src.handleMethodCall, hc]
  | cons m rest =>
    cases hm : extractMethodName m with
    | none =>
      left
      cases parent <;> simp [Src.handleMethodCall, hc, hm]
    | some name =>
      cases parent with
      | none => left; simp [Src.handleMethodCall, hc, hm]
      | some pid =>
        by_cases hz : name = "" ∨ pid = ""
        · left; simp [Src.handleMethodCall, hc, hm, hz]
        · right
          exact ⟨name, pid, rfl, by simp [Src.handleMethodCall, hc, hm, hz]⟩

/-- Every dispatch step of the src/src revision preserves the uniqueness
invariant. -/
theorem Src.handleOne_uniq (hashFn : String → Int) (path : String) :
    ∀ n parent s, Src.Uniq s → Src.Uniq (Src.handleOne hashFn n path parent s).1 := by
  apply Src.handleOne_presSrc hashFn path Src.Uniq
  · intro n fname s hs
    rcases Src.handleModule_shapeSrc n path fname s with h | ⟨hfresh, h⟩
    · rwa [h]
    · rw [h]
      exact Src.Uniq.stage s _ hs hfresh
  · intro n parent s hs
    rcases Src.handleClassDefinition_shapeSrc n path parent s with h | ⟨nd, hfresh, h⟩
    · rwa [h]
    · rw [h]
      exact Src.addRelationship_uniq _ _ _ _ (Src.Uniq.stage s nd hs hfresh)
  · intro n parent s hs
    rcases Src.handleFunctionDefinition_shapeSrc n path parent s with h | ⟨nd, hfresh, h⟩
    · rwa [h]
    · rw [h]
      exact Src.addRelationship_uniq _ _ _ _ (Src.Uniq.stage s nd hs hfresh)
  · intro n s hs
    rcases Src.handleImport_shape hashFn n path s with h | ⟨nd, hfresh, h⟩
    · rwa [h]
    · rw [h]
      exact Src.addRelationship_uniq _ _ _ _ (Src.Uniq.stage s nd hs hfresh)
  · intro n parent s hs
    rcases Src.handleMethodCall_shapeSrc n path parent s with h | ⟨m, pid, _, h⟩
    · rwa [h]
    · rw [h]
      exact Src.addRelationship_uniq _ _ _ _ hs

/-- The whole recursive walk of the src/src revision preserves the uniqueness
invariant. -/
theorem Src.parseNode_uniq (hashFn : String → Int) (path : String) :
    ∀ n parent s, Src.Uniq s → Src.Uniq (Src.parseNode hashFn n path parent s) :=
  Src.parseNode_presSrc hashFn path Src.Uniq (Src.handleOne_uniq hashFn path)

/-- The staged node of the module branch of the src/src walker: helper for
evaluating `Src.Uniq` at the fresh state. -/
theorem Src.Uniq.init : Src.Uniq SrcState.init := by
  refine ⟨?_, ?_, ?_⟩ <;> simp [SrcState.init]

/-- The recursive step of the signature_based_rag walker, stated through the
`children` projection. -/
theorem Sig.parseNode_eq (n : TSNode) (path : String) (parent : Option String)
    (s : SigState) :
    Sig.parseNode n path parent s =
      Sig.parseChildren n.children path (Sig.handleOne n path parent s).2
        (Sig.handleOne n path parent s).1 := by
  cases n with
  | mk t x r e cs => simp only [Sig.parseNode, TSNode.children]

/-- The recursive step of the src/src walker, stated through the `children`
projection. -/
theorem Src.parseNode_eqSrc (hashFn : String → Int) (n : TSNode) (path : String)
    (parent : Option String) (s : SrcState) :
    Src.parseNode hashFn n path parent s =
      Src.parseChildren hashFn n.children path
        (Src.handleOne hashFn n path parent s).2
        (Src.handleOne hashFn n path parent s).1 := by
  cases n with
  | mk t x r e cs => simp only [Src.parseNode, TSNode.children]

/-- The dispatch step at a module node (signature_based_rag): the enclosing id
is left unchanged. -/
theorem Sig.handleOne_module (n : TSNode) (path : String) (parent : Option String)
    (s : SigState) (h : n.ty = "module") :
    Sig.handleOne n path parent s =
      (Sig.handleModule n path (pathName path) s, parent) := by
  unfold Sig.handleOne
  simp [h]

/-- The dispatch step at a class-definition node (signature_based_rag). -/
theorem Sig.handleOne_class (n : TSNode) (path : String) (parent : Option String)
    (s : SigState) (h : n.ty = "class_definition") :
    Sig.handleOne n path parent s = Sig.handleClassDefinition n path parent s := by
  unfold Sig.handleOne
  simp [h]

/-- The dispatch step at a function-definition node (signature_based_rag). -/
theorem Sig.handleOne_function (n : TSNode) (path : String)
    (parent : Option String) (s : SigState) (h : n.ty = "function_definition") :
    Sig.handleOne n path parent s = Sig.handleFunctionDefinition n path parent s := by
  unfold Sig.handleOne
  simp [h]

/-- The dispatch step at a call node (signature_based_rag). -/
theorem Sig.handleOne_call (n : TSNode) (path : String) (parent : Option String)
    (s : SigState) (h : n.ty = "call") :
    Sig.handleOne n path parent s = (Sig.handleMethodCall n parent s, parent) := by
  unfold Sig.handleOne
  simp [h]

/-- The dispatch step at a class-definition node (src/src). -/
theorem Src.handleOne_classSrc (hashFn : String → Int) (n : TSNode) (path : String)
    (parent : Option String) (s : SrcState) (h : n.ty = "class_definition") :
    Src.handleOne hashFn n path parent s = Src.handleClassDefinition n path parent s := by
  unfold Src.handleOne
  simp [h]

/-- The dispatch step at a function-definition node (src/src). -/
theorem Src.handleOne_functionSrc (hashFn : String → Int) (n : TSNode) (path : String)
    (parent : Option String) (s : SrcState) (h : n.ty = "function_definition") :
    Src.handleOne hashFn n path parent s = Src.handleFunctionDefinition n path parent s := by
  unfold Src.handleOne
  simp [h]

/-- A class definition whose derived id is already in `processed_nodes` leaves
the state untouched but still returns the shared id (src/src). -/
theorem Src.handleClassDefinition_processed (n : TSNode) (path : String)
    (parent : Option String) (s : SrcState) (name : String)
    (h1 : extractIdentifier n = some name) (h2 : ¬ name = "")
    (h3 : ("class:" ++ name) ∈ s.processed) :
    Src.handleClassDefinition n path parent s = (s, some ("class:" ++ name)) := by
  unfold Src.handleClassDefinition
  rw [h1]
  simp [h2, h3]

/-- A function definition whose derived id is already in `processed_nodes`
leaves the state untouched but still returns the shared id (src/src). -/
theorem Src.handleFunctionDefinition_processed (n : TSNode) (path : String)
    (parent : Option String) (s : SrcState) (name : String)
    (h1 : extractIdentifier n = some name) (h2 : ¬ name = "")
    (h3 : ("method:" ++ name) ∈ s.processed) :
    Src.handleFunctionDefinition n path parent s = (s, some ("method:" ++ name)) := by
  unfold Src.handleFunctionDefinition
  rw [h1]
  simp [h2, h3]

/-- A list each of whose elements contributes nothing flat-maps to nothing. -/
theorem flatMap_eq_nil_of_forall {α β : Type} (l : List α) (f : α → List β)
    (h : ∀ a ∈ l, f a = []) : l.flatMap f = [] := by
  induction l with
  | nil => rfl
  | cons a as ih =>
    rw [List.flatMap_cons, h a (List.mem_cons_self _ _),
        ih (fun b hb => h b (List.mem_cons_of_mem _ hb))]
    rfl

/-- `_add_relationship` (src/src) never changes the staged node list. -/
theorem Src.addRelationship_nodes (a b c : String) (s : SrcState) :
    (Src.addRelationship a b c s).nodes = s.nodes := by
  rcases Src.addRelationship_shape a b c s with h | ⟨_, h⟩ <;> rw [h]

/-- C6: for every source unit that is unreadable or whose reading/parsing
raises, `parse_file` returns an empty node list and an empty relationship
list in both revisions, and the signature_based_rag revision emits nothing at
all; the error is absorbed by the `except` clause, so (the functions being
total) no exception escapes the extraction boundary. -/
theorem C6_error_yields_empty (msg path : String) (hashFn : String → Int) :
    Src.parseFile hashFn (.error msg) path = ([], []) ∧
    (Sig.parseFile (.error msg) path).2 = some ([], []) ∧
    (Sig.parseFile (.error msg) path).1 = SigState.init :=
  ⟨rfl, rfl, rfl⟩

/-- C7 (code evidence): on every successfully parsed source unit the src/src
revision returns the pass's staged node and relationship sequences, but the
signature_based_rag revision returns Python `None` — its `try` block ends
without a `return` statement, contradicting its own annotation
`-> tuple[List[Dict], List[Dict]]` and docstring. -/
theorem C7_success_return_value :
    (∀ (root : TSNode) (path : String), (Sig.parseFile (.ok root) path).2 = none) ∧
    (∀ (hashFn : String → Int) (root : TSNode) (path : String),
      Src.parseFile hashFn (.ok root) path =
        ((Src.parseNode hashFn root path none SrcState.init).nodes,
         (Src.parseNode hashFn root path none SrcState.init).rels)) :=
  ⟨fun _ _ => rfl, fun _ _ _ => rfl⟩

/-- C2 (counterexample): on the callable definition
`def f(a, b: int, c=3): pass` neither revision extracts `["a","b","c"]`: the
signature_based_rag revision drops the defaulted parameter and the src/src
revision drops the typed parameter. -/
theorem C2_counterexample :
    ¬ Sig.extractParameters fdefABC = ["a", "b", "c"] ∧
    ¬ Src.extractParameters fdefABC = ["a", "b", "c"] := by
  decide

/-- C2 (amended): for every callable-definition node whose unique `parameters`
child is the parameter list `(a, b: int, c=3)`, the signature_based_rag
revision extracts exactly `["a","b"]` (plain and typed parameters keep their
bound identifier, the defaulted parameter is dropped) and the src/src revision
extracts exactly `["a","c"]` (plain and defaulted parameters keep their bound
identifier, the typed parameter is dropped). -/
theorem C2_parameter_extraction (n : TSNode) (pre post : List TSNode)
    (hch : n.children = pre ++ paramsABC :: post)
    (hpre : ∀ c ∈ pre, ¬ c.ty = "parameters")
    (hpost : ∀ c ∈ post, ¬ c.ty = "parameters") :
    Sig.extractParameters n = ["a", "b"] ∧
    Src.extractParameters n = ["a", "c"] := by
  constructor
  · unfold Sig.extractParameters
    rw [hch, List.flatMap_append, List.flatMap_cons]
    rw [flatMap_eq_nil_of_forall pre _ (fun c hc => by simp [hpre c hc]),
        flatMap_eq_nil_of_forall post _ (fun c hc => by simp [hpost c hc])]
    simp only [List.nil_append, List.append_nil]
    decide
  · unfold Src.extractParameters
    rw [hch, List.flatMap_append, List.flatMap_cons]
    rw [flatMap_eq_nil_of_forall pre _ (fun c hc => by simp [hpre c hc]),
        flatMap_eq_nil_of_forall post _ (fun c hc => by simp [hpost c hc])]
    simp only [List.nil_append, List.append_nil]
    decide

/-- C2 (witness): the amended extraction results evaluated on the concrete
definition `def f(a, b: int, c=3): pass`. -/
theorem C2_parameter_extraction_witness :
    Sig.extractParameters fdefABC = ["a", "b"] ∧
    Src.extractParameters fdefABC = ["a", "c"] :=
  C2_parameter_extraction fdefABC
    [TSNode.mk "def" "def" 0 0 [], TSNode.mk "identifier" "f" 0 0 []]
    [TSNode.mk ":" ":" 0 0 [],
     TSNode.mk "block" "pass" 0 0 [TSNode.mk "pass_statement" "pass" 0 0 []]]
    rfl (by decide) (by decide)

/-- C8: in both revisions, the Method node staged for a first-time callable
definition carries `method_type = "async"` exactly when an `async` marker
token is a direct child of the definition node, and `method_type = "sync"`
otherwise. -/
theorem C8_async_detection (n : TSNode) (path : String) (parent : Option String)
    (s : SigState) (t : SrcState) (name : String)
    (h1 : extractIdentifier n = some name) (h2 : ¬ name = "")
    (h3 : ¬ ("method:" ++ name) ∈ s.processed)
    (h4 : ¬ ("method:" ++ name) ∈ t.processed) :
    ∃ mt : String,
      (∃ nd : SigNode,
        (Sig.handleFunctionDefinition n path parent s).1.nodes = s.nodes ++ [nd] ∧
        nd.props.methodType = some mt) ∧
      (∃ nd : SrcNode,
        (Src.handleFunctionDefinition n path parent t).1.nodes = t.nodes ++ [nd] ∧
        nd.props.methodType = some mt) ∧
      (mt = "async" ↔ ∃ c ∈ n.children, c.ty = "async") ∧
      (mt = "sync" ↔ ¬ ∃ c ∈ n.children, c.ty = "async") := by
  have hiff : (n.children.any (fun c => c.ty == "async")) = true ↔
      ∃ c ∈ n.children, c.ty = "async" := by
    rw [List.any_eq_true]
    constructor
    · rintro ⟨c, hc, hb⟩
      exact ⟨c, hc, by simpa using hb⟩
    · rintro ⟨c, hc, hb⟩
      exact ⟨c, hc, by simp [hb]⟩
  refine ⟨if n.children.any (fun c => c.ty == "async") then "async" else "sync",
    ⟨⟨["Method"], "method:" ++ name,
      .method name "" path
        (if n.children.any (fun c => c.ty == "async") then "async" else "sync")
        (Sig.extractParameters n) n.text⟩,
      by rw [Sig.handleFunctionDefinition_eq n path parent s name h1 h2 h3], rfl⟩,
    ⟨⟨"method:" ++ name, ["Method"],
      .method name ((Src.extractDocstring n).getD "") path
        (if n.children.any (fun c => c.ty == "async") then "async" else "sync")
        (Src.extractParameters n) (n.startRow + 1) (n.endRow + 1)⟩,
      ?_, rfl⟩, ?_, ?_⟩
  · rw [Src.handleFunctionDefinition_eqSrc n path parent t name h1 h2 h4,
        Src.addRelationship_nodes]
  · by_cases ha : (n.children.any (fun c => c.ty == "async")) = true
    · rw [if_pos ha]
      exact iff_of_true rfl (hiff.mp ha)
    · rw [if_neg ha]
      exact iff_of_false (by decide) (fun hx => ha (hiff.mpr hx))
  · by_cases ha : (n.children.any (fun c => c.ty == "async")) = true
    · rw [if_pos ha]
      exact iff_of_false (by decide) (by simpa using hiff.mp ha)
    · rw [if_neg ha]
      exact iff_of_true rfl (fun hx => ha (hiff.mpr hx))

/-- C8 (witness): the async detection evaluated on the concrete definitions
`async def run(self): pass` and `def tick(): pass` from fresh states. -/
theorem C8_async_detection_witness :
    (∃ mt : String,
      (∃ nd : SigNode,
        (Sig.handleFunctionDefinition asyncDef "sample.py" none SigState.init).1.nodes =
          SigState.init.nodes ++ [nd] ∧
        nd.props.methodType = some mt) ∧
      (∃ nd : SrcNode,
        (Src.handleFunctionDefinition asyncDef "sample.py" none SrcState.init).1.nodes =
          SrcState.init.nodes ++ [nd] ∧
        nd.props.methodType = some mt) ∧
      (mt = "async" ↔ ∃ c ∈ asyncDef.children, c.ty = "async") ∧
      (mt = "sync" ↔ ¬ ∃ c ∈ asyncDef.children, c.ty = "async")) ∧
    (∃ mt : String,
      (∃ nd : SigNode,
        (Sig.handleFunctionDefinition syncDef "sample.py" none SigState.init).1.nodes =
          SigState.init.nodes ++ [nd] ∧
        nd.props.methodType = some mt) ∧
      (∃ nd : SrcNode,
        (Src.handleFunctionDefinition syncDef "sample.py" none SrcState.init).1.nodes =
          SrcState.init.nodes ++ [nd] ∧
        nd.props.methodType = some mt) ∧
      (mt = "async" ↔ ∃ c ∈ syncDef.children, c.ty = "async") ∧
      (mt = "sync" ↔ ¬ ∃ c ∈ syncDef.children, c.ty = "async")) :=
  ⟨C8_async_detection asyncDef "sample.py" none SigState.init SrcState.init "run"
      (by decide) (by decide) (by decide) (by decide),
   C8_async_detection syncDef "sample.py" none SigState.init SrcState.init "tick"
      (by decide) (by decide) (by decide) (by decide)⟩

/-- C9: in the signature_based_rag revision, a type- or callable-definition
node with no extractable (truthy) identifier makes its handler return an
absent id; the walker then recurses into that node's entire child list with an
absent enclosing id (the previous enclosing id is no longer visible); a named
function or class definition processed under the absent enclosing id stages
its `DEFINED_IN` edge to the file fallback id; and a call expression processed
under the absent enclosing id stages no `CALLED_IN` relationship at all. -/
theorem C9_anonymous_definition_scoping :
    (∀ (n : TSNode) (path : String) (parent : Option String) (s : SigState),
      (extractIdentifier n = none ∨ extractIdentifier n = some "") →
      Sig.handleClassDefinition n path parent s = (s, none) ∧
      Sig.handleFunctionDefinition n path parent s = (s, none)) ∧
    (∀ (n : TSNode) (path : String) (parent : Option String) (s : SigState),
      (n.ty = "class_definition" ∨ n.ty = "function_definition") →
      (extractIdentifier n = none ∨ extractIdentifier n = some "") →
      Sig.parseNode n path parent s = Sig.parseChildren n.children path none s) ∧
    (∀ (n : TSNode) (path : String) (s : SigState) (name : String),
      extractIdentifier n = some name → ¬ name = "" →
      ¬ ("method:" ++ name) ∈ s.processed →
      (Sig.handleFunctionDefinition n path none s).1.rels =
        s.rels ++
          [⟨"method:" ++ name, "file:" ++ pathName path, "DEFINED_IN", []⟩]) ∧
    (∀ (n : TSNode) (path : String) (s : SigState) (name : String),
      extractIdentifier n = some name → ¬ name = "" →
      ¬ ("class:" ++ name) ∈ s.processed →
      (Sig.handleClassDefinition n path none s).1.rels =
        s.rels ++
          [⟨"class:" ++ name, "file:" ++ pathName path, "DEFINED_IN", []⟩]) ∧
    (∀ (n : TSNode) (s : SigState), Sig.handleMethodCall n none s = s) := by
  refine ⟨?_, ?_, ?_, ?_, Sig.handleMethodCall_none⟩
  · intro n path parent s h
    exact ⟨Sig.handleClassDefinition_anon n path parent s h,
           Sig.handleFunctionDefinition_anon n path parent s h⟩
  · intro n path parent s hty h
    rw [Sig.parseNode_eq]
    rcases hty with hty | hty
    · rw [Sig.handleOne_class n path parent s hty,
          Sig.handleClassDefinition_anon n path parent s h]
    · rw [Sig.handleOne_function n path parent s hty,
          Sig.handleFunctionDefinition_anon n path parent s h]
  · intro n path s name h1 h2 h3
    rw [Sig.handleFunctionDefinition_eq n path none s name h1 h2 h3]
    rfl
  · intro n path s name h1 h2 h3
    rw [Sig.handleClassDefinition_eq n path none s name h1 h2 h3]
    rfl

/-- C9 (witness): the scoping behavior evaluated on the concrete anonymous
class `class : ...` containing a named function and on a call expression with
no enclosing id. -/
theorem C9_anonymous_definition_scoping_witness :
    (Sig.handleClassDefinition anonClassTree "sample.py" (some "class:Outer")
        SigState.init = (SigState.init, none) ∧
      Sig.handleFunctionDefinition anonClassTree "sample.py" (some "class:Outer")
        SigState.init = (SigState.init, none)) ∧
    Sig.parseNode anonClassTree "sample.py" (some "class:Outer") SigState.init =
      Sig.parseChildren anonClassTree.children "sample.py" none SigState.init ∧
    (Sig.handleFunctionDefinition
        (TSNode.mk "function_definition" "def inner(): helper()" 1 1
          [TSNode.mk "def" "def" 1 1 [],
           TSNode.mk "identifier" "inner" 1 1 [],
           TSNode.mk "parameters" "()" 1 1
             [TSNode.mk "(" "(" 1 1 [], TSNode.mk ")" ")" 1 1 []],
           TSNode.mk ":" ":" 1 1 [],
           TSNode.mk "block" "helper()" 1 1 []])
        "sample.py" none SigState.init).1.rels =
      SigState.init.rels ++
        [⟨"method:inner", "file:sample.py", "DEFINED_IN", []⟩] ∧
    Sig.handleMethodCall callBar none SigState.init = SigState.init :=
  ⟨C9_anonymous_definition_scoping.1 anonClassTree "sample.py" (some "class:Outer")
      SigState.init (Or.inl (by decide)),
   C9_anonymous_definition_scoping.2.1 anonClassTree "sample.py"
      (some "class:Outer") SigState.init (Or.inl (by decide)) (Or.inl (by decide)),
   C9_anonymous_definition_scoping.2.2.1 _ "sample.py" SigState.init "inner"
      (by decide) (by decide) (by decide),
   C9_anonymous_definition_scoping.2.2.2.2 callBar SigState.init⟩

/-- C10: in the src/src revision, a class or function definition whose derived
id is already in the processed-id set stages neither a node nor a `DEFINED_IN`
edge (the state is returned untouched, so the duplicate definition's
containment edge to its own lexical parent is dropped), while the handler
still returns the shared id; the walker therefore scopes the duplicate
definition's descendants under that shared id. -/
theorem C10_duplicate_definition (hashFn : String → Int) (n : TSNode)
    (path : String) (parent : Option String) (s : SrcState) (name : String)
    (h1 : extractIdentifier n = some name) (h2 : ¬ name = "") :
    (("class:" ++ name) ∈ s.processed →
      Src.handleClassDefinition n path parent s = (s, some ("class:" ++ name)) ∧
      (n.ty = "class_definition" →
        Src.parseNode hashFn n path parent s =
          Src.parseChildren hashFn n.children path (some ("class:" ++ name)) s)) ∧
    (("method:" ++ name) ∈ s.processed →
      Src.handleFunctionDefinition n path parent s = (s, some ("method:" ++ name)) ∧
      (n.ty = "function_definition" →
        Src.parseNode hashFn n path parent s =
          Src.parseChildren hashFn n.children path (some ("method:" ++ name)) s)) := by
  constructor
  · intro h3
    refine ⟨Src.handleClassDefinition_processed n path parent s name h1 h2 h3, ?_⟩
    intro hty
    rw [Src.parseNode_eqSrc, Src.handleOne_classSrc hashFn n path parent s hty,
        Src.handleClassDefinition_processed n path parent s name h1 h2 h3]
  · intro h3
    refine ⟨Src.handleFunctionDefinition_processed n path parent s name h1 h2 h3, ?_⟩
    intro hty
    rw [Src.parseNode_eqSrc, Src.handleOne_functionSrc hashFn n path parent s hty,
        Src.handleFunctionDefinition_processed n path parent s name h1 h2 h3]

/-- C10 (witness): the suppression evaluated on the concrete definition
`class Foo(Base): pass` in a state whose processed set already holds
`class:Foo`. -/
theorem C10_duplicate_definition_witness :
    (Src.handleClassDefinition classFooTree "other.py" (some "class:Outer")
        ⟨["class:Foo"], [], []⟩ =
      (⟨["class:Foo"], [], []⟩, some "class:Foo") ∧
      (classFooTree.ty = "class_definition" →
        Src.parseNode (fun _ => 0) classFooTree "other.py" (some "class:Outer")
            ⟨["class:Foo"], [], []⟩ =
          Src.parseChildren (fun _ => 0) classFooTree.children "other.py"
            (some "class:Foo") ⟨["class:Foo"], [], []⟩)) :=
  (C10_duplicate_definition (fun _ => 0) classFooTree "other.py"
      (some "class:Outer") ⟨["class:Foo"], [], []⟩ "Foo" (by decide) (by decide)).1
    (by decide)

/-- C1 (counterexample): walking a module whose only statement is the
module-level call `foo()` stages no relationship at all — in particular no
`CALLED_IN` edge from `method:foo` to the file id — because the module handler
does not set the enclosing id, so module-level call expressions see an absent
enclosing id. -/
theorem C1_counterexample :
    ¬ ((⟨"method:foo", "file:sample.py", "CALLED_IN", []⟩ : GraphRel) ∈
        (Sig.parseFile (.ok moduleCallTree) "sample.py").1.rels) ∧
    (Sig.parseFile (.ok moduleCallTree) "sample.py").1.rels = [] := by
  decide

/-- C1 (amended): a call-expression node whose callee resolves to a truthy
target name stages a `CALLED_IN` edge from `method:<target_name>` to the
current enclosing id whenever that enclosing id is present (and truthy), and
the edge survives the rest of the subtree walk; however, the module handler
leaves the enclosing id unchanged — it stays absent at the top of the walk —
and a call expression walked with an absent enclosing id stages no `CALLED_IN`
edge at all, so module-level calls produce no edge to the file id. -/
theorem C1_call_edge (n : TSNode) (path pid : String) (s : SigState)
    (mNode : TSNode) (rest : List TSNode) (m : String) :
    (n.ty = "call" → n.children = mNode :: rest →
      extractMethodName mNode = some m → ¬ m = "" → ¬ pid = "" →
      (⟨"method:" ++ m, pid, "CALLED_IN", []⟩ : GraphRel) ∈
        (Sig.parseNode n path (some pid) s).rels) ∧
    (∀ parent : Option String, n.ty = "module" →
      Sig.parseNode n path parent s =
        Sig.parseChildren n.children path parent
          (Sig.handleModule n path (pathName path) s)) ∧
    Sig.handleMethodCall n none s = s := by
  refine ⟨?_, ?_, Sig.handleMethodCall_none n s⟩
  · intro hty hch hm hm0 hpid
    rw [Sig.parseNode_eq, Sig.handleOne_call n path (some pid) s hty,
        Sig.handleMethodCall_eq n pid s mNode rest m hch hm hm0 hpid]
    apply Sig.parseChildren_pres path
      (fun st => (⟨"method:" ++ m, pid, "CALLED_IN", []⟩ : GraphRel) ∈ st.rels)
    · intro c _ parent st hst
      exact Sig.parseNode_rels_mono path _ c parent st hst
    · simp
  · intro parent hty
    rw [Sig.parseNode_eq, Sig.handleOne_module n path parent s hty]

/-- C1 (witness): the amended behavior evaluated on the concrete call `bar()`
walked with enclosing id `method:run`, and on the module node of
`moduleCallTree`. -/
theorem C1_call_edge_witness :
    ((⟨"method:bar", "method:run", "CALLED_IN", []⟩ : GraphRel) ∈
      (Sig.parseNode callBar "sample.py" (some "method:run") SigState.init).rels) ∧
    Sig.parseNode moduleCallTree "sample.py" none SigState.init =
      Sig.parseChildren moduleCallTree.children "sample.py" none
        (Sig.handleModule moduleCallTree "sample.py" (pathName "sample.py")
          SigState.init) :=
  ⟨(C1_call_edge callBar "sample.py" "method:run" SigState.init
      (TSNode.mk "identifier" "bar" 0 0 [])
      [TSNode.mk "argument_list" "()" 0 0
        [TSNode.mk "(" "(" 0 0 [], TSNode.mk ")" ")" 0 0 []]] "bar").1
    (by decide) rfl (by decide) (by decide) (by decide),
   (C1_call_edge moduleCallTree "sample.py" "x" SigState.init emptyModule []
      "x").2.1 none (by decide)⟩

/-- C5: in the signature_based_rag revision, every staged node carrying a
`Class` or `Method` label has at least one `DEFINED_IN` relationship staged
with that node's id as start id; and a first-time class or function staging
performed with an absent enclosing id (no enclosing type or callable) stages
its `DEFINED_IN` edge ending at the file id `file:<basename>`. -/
theorem C5_containment (root : TSNode) (path : String) :
    (∀ nd ∈ (Sig.parseFile (.ok root) path).1.nodes,
      ("Class" ∈ nd.labels ∨ "Method" ∈ nd.labels) →
      ∃ r ∈ (Sig.parseFile (.ok root) path).1.rels,
        r.start_id = nd.id ∧ r.label = "DEFINED_IN") ∧
    (∀ (n : TSNode) (s : SigState) (name : String),
      extractIdentifier n = some name → ¬ name = "" →
      ¬ ("class:" ++ name) ∈ s.processed →
      (Sig.handleClassDefinition n path none s).1.rels =
        s.rels ++
          [⟨"class:" ++ name, "file:" ++ pathName path, "DEFINED_IN", []⟩]) ∧
    (∀ (n : TSNode) (s : SigState) (name : String),
      extractIdentifier n = some name → ¬ name = "" →
      ¬ ("method:" ++ name) ∈ s.processed →
      (Sig.handleFunctionDefinition n path none s).1.rels =
        s.rels ++
          [⟨"method:" ++ name, "file:" ++ pathName path, "DEFINED_IN", []⟩]) := by
  refine ⟨?_, ?_, ?_⟩
  · show Sig.Contained
      (Sig.createImportNode path (Sig.parseNode root path none SigState.init))
    apply Sig.createImportNode_contained
    apply Sig.parseNode_contained
    intro nd hnd
    simp [SigState.init] at hnd
  · intro n s name h1 h2 h3
    rw [Sig.handleClassDefinition_eq n path none s name h1 h2 h3]
    rfl
  · intro n s name h1 h2 h3
    rw [Sig.handleFunctionDefinition_eq n path none s name h1 h2 h3]
    rfl

/-- C5 (witness): containment evaluated on the concrete module containing
`class Foo(Base): pass`. -/
theorem C5_containment_witness :
    ∃ r ∈ (Sig.parseFile
        (.ok (TSNode.mk "module" "class Foo(Base): pass" 0 0 [classFooTree]))
        "sample.py").1.rels,
      r.start_id = "class:Foo" ∧ r.label = "DEFINED_IN" :=
  (C5_containment (TSNode.mk "module" "class Foo(Base): pass" 0 0 [classFooTree])
      "sample.py").1
    ⟨["Class"], "class:Foo", .cls "Foo" "" "sample.py" ["Base"]
      "class Foo(Base): pass"⟩
    (by decide) (by decide)

/-- C3: in the signature_based_rag revision, a source unit with no import
statement emits no Import node and no `IMPORTS_FOR` relationship, while a
source unit containing at least one import statement (each spanning non-blank
source text, as every real import statement does) emits exactly one Import
node — with id `import:<basename>` and `code_block` the stripped import
statement texts joined by newlines in encounter order — and exactly one
`IMPORTS_FOR` relationship from the Import id to the file id. -/
theorem C3_import_aggregation (root : TSNode) (path : String) :
    (importNodes root = [] →
      ((Sig.parseFile (.ok root) path).1.nodes.filter
          (fun nd => "Import" ∈ nd.labels)) = [] ∧
      ((Sig.parseFile (.ok root) path).1.rels.filter
          (fun r => r.label = "IMPORTS_FOR")) = []) ∧
    (¬ importNodes root = [] → (∀ m ∈ importNodes root, ¬ pyStrip m.text = "") →
      ((Sig.parseFile (.ok root) path).1.nodes.filter
          (fun nd => "Import" ∈ nd.labels)) =
        [⟨["Import"], "import:" ++ pathName path,
          .imp "imports" ("All imports for " ++ pathName path) path
            (String.intercalate "\n"
              ((importNodes root).map (fun m => pyStrip m.text)))⟩] ∧
      ((Sig.parseFile (.ok root) path).1.rels.filter
          (fun r => r.label = "IMPORTS_FOR")) =
        [⟨"import:" ++ pathName path, "file:" ++ pathName path,
          "IMPORTS_FOR", []⟩]) := by
  have hcore : Sig.CoreOnly (Sig.parseNode root path none SigState.init) := by
    apply Sig.parseNode_coreOnly
    constructor <;> intro x hx <;> simp [SigState.init] at hx
  have himps : (Sig.parseNode root path none SigState.init).imports =
      importTexts root := by
    have h := Sig.parseNode_imports path root none SigState.init
    simpa [SigState.init] using h
  have hpf : (Sig.parseFile (.ok root) path).1 =
      Sig.createImportNode path (Sig.parseNode root path none SigState.init) := rfl
  constructor
  · intro h
    have htexts : importTexts root = [] := by
      unfold importTexts
      rw [h]
      rfl
    have hs1 : (Sig.parseNode root path none SigState.init).imports = [] := by
      rw [himps, htexts]
    rcases Sig.createImportNode_shape path
        (Sig.parseNode root path none SigState.init) with ⟨_, heq⟩ | ⟨hne, _⟩
    · rw [hpf, heq]
      constructor
      · rw [List.filter_eq_nil_iff]
        intro nd hnd
        simpa using hcore.1 nd hnd
      · rw [List.filter_eq_nil_iff]
        intro r hr
        simpa using hcore.2 r hr
    · exact absurd hs1 hne
  · intro h1 h2
    have hall : ∀ t ∈ (importNodes root).map (fun m => pyStrip m.text),
        ¬ t = "" := by
      intro t ht
      simp only [List.mem_map] at ht
      obtain ⟨m, hm, rfl⟩ := ht
      exact h2 m hm
    have htexts : importTexts root =
        (importNodes root).map (fun m => pyStrip m.text) := by
      unfold importTexts
      rw [List.filter_eq_self.mpr]
      intro t ht
      simpa using hall t ht
    have hs1 : (Sig.parseNode root path none SigState.init).imports =
        (importNodes root).map (fun m => pyStrip m.text) := by
      rw [himps, htexts]
    have hne : ¬ (Sig.parseNode root path none SigState.init).imports = [] := by
      intro hx
      rw [hs1] at hx
      exact h1 (List.map_eq_nil_iff.mp hx)
    rcases Sig.createImportNode_shape path
        (Sig.parseNode root path none SigState.init) with ⟨hz, _⟩ | ⟨_, heq⟩
    · exact absurd hz hne
    · rw [hpf, heq]
      constructor
      · rw [List.filter_append, hs1]
        rw [List.filter_eq_nil_iff.mpr (fun nd hnd => by simpa using hcore.1 nd hnd)]
        simp
      · rw [List.filter_append]
        rw [List.filter_eq_nil_iff.mpr (fun r hr => by simpa using hcore.2 r hr)]
        simp

/-- C3 (witness): the aggregation evaluated on the concrete module containing
`import os` and `from sys import path`, and the absence of Import output on an
empty module. -/
theorem C3_import_aggregation_witness :
    (((Sig.parseFile (.ok importsTree) "sample.py").1.nodes.filter
        (fun nd => "Import" ∈ nd.labels)) =
      [⟨["Import"], "import:" ++ pathName "sample.py",
        .imp "imports" ("All imports for " ++ pathName "sample.py") "sample.py"
          (String.intercalate "\n"
            ((importNodes importsTree).map (fun m => pyStrip m.text)))⟩] ∧
     ((Sig.parseFile (.ok importsTree) "sample.py").1.rels.filter
        (fun r => r.label = "IMPORTS_FOR")) =
      [⟨"import:" ++ pathName "sample.py", "file:" ++ pathName "sample.py",
        "IMPORTS_FOR", []⟩]) ∧
    (((Sig.parseFile (.ok emptyModule) "sample.py").1.nodes.filter
        (fun nd => "Import" ∈ nd.labels)) = [] ∧
     ((Sig.parseFile (.ok emptyModule) "sample.py").1.rels.filter
        (fun r => r.label = "IMPORTS_FOR")) = []) :=
  ⟨(C3_import_aggregation importsTree "sample.py").2
      (List.ne_nil_of_length_pos
        (by rw [show (importNodes importsTree).length = 2 from rfl]; omega))
      (by decide),
   (C3_import_aggregation emptyModule "sample.py").1 rfl⟩

/-- C4: for every input (and any behavior of Python's string `hash`), the
src/src revision stages no two nodes sharing an `id` and no two relationships
sharing the `(start_id, end_id, label)` triple — duplicate relationship
triples are suppressed by the key check of `_add_relationship` irrespective of
their (always empty) properties. -/
theorem C4_uniqueness (hashFn : String → Int) (src : Except String TSNode)
    (path : String) :
    ((Src.parseFile hashFn src path).1.map SrcNode.id).Nodup ∧
    ((Src.parseFile hashFn src path).2.map
      (fun r => (r.start_id, r.end_id, r.label))).Nodup := by
  cases src with
  | error msg => constructor <;> simp [Src.parseFile]
  | ok root =>
    obtain ⟨h1, h2, h3⟩ :=
      Src.parseNode_uniq hashFn path root none SrcState.init Src.Uniq.init
    refine ⟨h2, ?_⟩
    have hcomp : ((Src.parseNode hashFn root path none SrcState.init).rels.map
        (fun r => relKey r.start_id r.label r.end_id)) =
      (((Src.parseNode hashFn root path none SrcState.init).rels.map
        (fun r => (r.start_id, r.end_id, r.label))).map
          (fun t => relKey t.1 t.2.2 t.2.1)) := by
      rw [List.map_map]
      rfl
    rw [hcomp] at h3
    exact h3.of_map _
